import Mathlib

/-!
# Verification of the booklook backend's rating / progress / pagination core

Shallow embedding of the relevant parts of the `booklook` repository
(SQLAlchemy models, repositories, controllers and helpers) and proofs about
them.  Python `int` columns are modelled as `ℤ` (ids and row counts as `ℕ`),
SQL `AVG` / float percentages as `ℚ`, nullable columns as `Option`,
and each `self.db.commit()` as producing one persisted database state.
-/

namespace Booklook

/-! ## Python truthiness helpers

Python `or` / `if x:` treat `None`, `0`, `""` and `[]` as falsy; these helpers
mirror that for the `Option` columns of the models. -/

def intTruthy : Option ℤ → Bool
  | some n => n ≠ 0
  | none => false

def ratTruthy : Option ℚ → Bool
  | some q => q ≠ 0
  | none => false

def strTruthy : Option String → Bool
  | some s => s ≠ ""
  | none => false

def listTruthy {α : Type} : Option (List α) → Bool
  | some l => ¬ l.isEmpty
  | none => false

/-- Python `a or b` on two nullable ints (`None`/`0` falsy). -/
def pyOrInt (a b : Option ℤ) : Option ℤ :=
  if intTruthy a then a else b

/-- Python `a or d` where `d` is a non-null default int. -/
def pyOrIntD (a : Option ℤ) (d : ℤ) : ℤ :=
  match a with
  | some n => if n ≠ 0 then n else d
  | none => d

/-- Python `str.lower()` for the ASCII strings that reach it here
(sort-order flags and search patterns). -/
def charToLower (c : Char) : Char :=
  if 'A' ≤ c ∧ c ≤ 'Z' then Char.ofNat (c.toNat + 32) else c

/-- ASCII lowercase of a string (`str.lower()`). -/
def strToLower (s : String) : String :=
  String.mk (s.data.map charToLower)

/-! ## Data model (src/models) -/

/-- `Review` row (src/models/review_model.py).  Columns irrelevant to the
claims (legacy mirrors `note`/`commentaire`/`livre_id`, `is_flagged`,
timestamps other than creation order) are omitted; `created_at` is modelled
as a logical clock so that `ORDER BY created_at` is meaningful. -/
structure Review where
  id : ℕ
  user_id : ℕ
  book_id : ℕ
  rating : ℤ
  title : Option String
  content : Option String
  created_at : ℕ
deriving Repr, DecidableEq

/-- `Book` row (src/models/book_model.py).  `pub_year` models
`extract('year', date_publication)`; unused presentation columns (isbn,
image_url, langue, editeur, content_path, word_count and the legacy
`note_moyenne`/`nombre_reviews` mirrors of the aggregates) are omitted. -/
structure Book where
  id : ℕ
  titre : String
  description : Option String
  author_names : Option (List String)
  genre_names : Option (List String)
  pub_year : Option ℤ
  average_rating : ℚ
  review_count : ℕ
  total_pages : Option ℤ
  nombre_pages : Option ℤ
  created_at : ℕ
deriving Repr, DecidableEq

/-- `ReadingProgress` row (src/models/reading_progress_model.py), keyed by
`(user_id, book_id)`. -/
structure Progress where
  user_id : ℕ
  book_id : ℕ
  current_page : ℤ
  total_pages : Option ℤ
  progress_percentage : ℚ
deriving Repr, DecidableEq

/-- The persisted database state: the three tables the claims are about,
plus the autoincrement counter for review primary keys (also used as the
logical creation clock). -/
structure DB where
  books : List Book
  reviews : List Review
  progress : List Progress
  next_review_id : ℕ
deriving Repr, DecidableEq

/-! ## List-update primitives

SQLAlchemy's `query.filter(...).first()` followed by mutating / deleting the
returned object touches exactly the first matching row; these mirror that. -/

/-- Update the first element satisfying `p` (the row returned by `.first()`). -/
def updateFirst {α : Type} (p : α → Bool) (f : α → α) : List α → List α
  | [] => []
  | x :: xs => if p x then f x :: xs else x :: updateFirst p f xs

/-- Delete the first element satisfying `p` (the row returned by `.first()`). -/
def deleteFirst {α : Type} (p : α → Bool) : List α → List α
  | [] => []
  | x :: xs => if p x then xs else x :: deleteFirst p xs

/-! ## Validation helpers (src/helpers/validation_helper.py) -/

/-- Result of `ValidationHelper.validate_pagination`: the issue list plus the
clamped `page` / `page_size` values (lines 10-28). -/
structure PaginationValidation where
  is_valid : Bool
  issues : List String
  page : ℤ
  page_size : ℤ
deriving Repr, DecidableEq

/-- `ValidationHelper.validate_pagination(page, page_size, max_page_size)`;
the Python default for `max_page_size` is `100`, passed explicitly here. -/
def validate_pagination (page page_size : ℤ) (max_page_size : ℤ) :
    PaginationValidation :=
  let issues :=
    (if page < 1 then ["Page must be greater than 0"] else []) ++
    (if page_size < 1 then ["Page size must be greater than 0"] else []) ++
    (if page_size > max_page_size then ["Page size cannot exceed max"] else [])
  { is_valid := issues.length = 0
    issues := issues
    page := max 1 page
    page_size := min (max 1 page_size) max_page_size }

/-- Result of `ValidationHelper.validate_review_data` (lines 46-66):
rating must be in `[1,5]`, title at most 200 chars, content at most 5000. -/
def validate_review_data (rating : ℤ) (title content : Option String) :
    List String :=
  (if rating < 1 ∨ rating > 5 then ["Rating must be between 1 and 5"] else []) ++
  (if strTruthy title ∧ (title.getD "").length > 200 then
    ["Title must be 200 characters or less"] else []) ++
  (if strTruthy content ∧ (content.getD "").length > 5000 then
    ["Content must be 5000 characters or less"] else [])

/-- `ValidationHelper.sanitize_string(value, max_length)` (lines 124-136):
`None`/empty is `None`; otherwise strip, truncate, and map a now-empty
string back to `None`. -/
def sanitize_string (value : Option String) (max_length : Option ℕ) :
    Option String :=
  match value with
  | none => none
  | some s =>
    if s = "" then none
    else
      let t := s.trim
      let t := match max_length with
        | some m => if t.length > m then t.take m else t
        | none => t
      if t = "" then none else some t

/-- `ValidationHelper.validate_reading_progress(current_page, total_pages)`
(lines 105-121).  Note the last two checks run only when `total_pages` is
truthy (non-`None` and nonzero). -/
def validate_reading_progress (current_page : ℤ) (total_pages : Option ℤ) :
    List String :=
  (if current_page < 0 then
    ["Current page must be greater than or equal to 0"] else []) ++
  (if intTruthy total_pages ∧ total_pages.getD 0 < 1 then
    ["Total pages must be greater than 0"] else []) ++
  (if intTruthy total_pages ∧ current_page > total_pages.getD 0 then
    ["Current page cannot exceed total pages"] else [])

/-- Result of `ValidationHelper.validate_sort_params` (lines 138-154). -/
structure SortValidation where
  is_valid : Bool
  issues : List String
  sort_by : String
  sort_order : String
deriving Repr, DecidableEq

/-- `ValidationHelper.validate_sort_params(sort_by, sort_order, allowed_fields)`. -/
def validate_sort_params (sort_by sort_order : String)
    (allowed_fields : List String) : SortValidation :=
  let issues :=
    (if sort_by ∈ allowed_fields then [] else ["Sort field must be one of the allowed fields"]) ++
    (if strToLower sort_order ∈ ["asc", "desc"] then [] else ["Sort order must be asc or desc"])
  { is_valid := issues.length = 0
    issues := issues
    sort_by := if sort_by ∈ allowed_fields then sort_by else allowed_fields.headD ""
    sort_order := if strToLower sort_order ∈ ["asc", "desc"] then strToLower sort_order else "asc" }

/-- `ValidationHelper.validate_search_params` (lines 69-102); every check is
guarded by Python truthiness of the corresponding argument. -/
def validate_search_params (search : Option String)
    (genre_filter author_filter : Option (List String))
    (year_from year_to : Option ℤ) (min_rating : Option ℚ) : List String :=
  (if strTruthy search ∧ (search.getD "").length > 200 then
    ["Search query must be 200 characters or less"] else []) ++
  (if intTruthy year_from ∧ intTruthy year_to ∧ year_from.getD 0 > year_to.getD 0 then
    ["Year from must be less than or equal to year to"] else []) ++
  (if ratTruthy min_rating ∧ (min_rating.getD 0 < 0 ∨ min_rating.getD 0 > 5) then
    ["Minimum rating must be between 0 and 5"] else []) ++
  (if listTruthy genre_filter ∧ (genre_filter.getD []).length > 10 then
    ["Cannot filter by more than 10 genres"] else []) ++
  (if listTruthy author_filter ∧ (author_filter.getD []).length > 10 then
    ["Cannot filter by more than 10 authors"] else [])

/-! ## Rating aggregates (src/repositories, src/models/book_model.py) -/

/-- The ratings of the review rows in `rs` referencing book `bid`
(`query(Review).filter(Review.book_id == book_id)`). -/
def ratingsOf (rs : List Review) (bid : ℕ) : List ℤ :=
  (rs.filter (fun r => r.book_id = bid)).map (fun r => r.rating)

/-- The ratings of book `bid`'s review rows in the database. -/
def bookRatings (db : DB) (bid : ℕ) : List ℤ :=
  ratingsOf db.reviews bid

/-- The mean of a rating list, with SQL `AVG` over zero rows (`NULL`) mapped
to `0.0` as in `calculate_book_rating_stats`. -/
def avgOf (l : List ℤ) : ℚ :=
  if l.length = 0 then 0 else (l.sum : ℚ) / (l.length : ℚ)

/-- `ReviewRepository.calculate_book_rating_stats` (lines 202-216). -/
def calculate_book_rating_stats (db : DB) (bid : ℕ) : ℚ × ℕ :=
  let rs := bookRatings db bid
  (avgOf rs, rs.length)

/-- `BookRepository.update_rating_stats` (lines 211-224) /
`Book.update_rating_stats`: write the two aggregates on the book row with the
given id (`id` is the primary key, so the keyed update is written as a map
over the rows with that id); no-op when the book does not exist. -/
def update_rating_stats (db : DB) (bid : ℕ) (avg : ℚ) (cnt : ℕ) : DB :=
  { db with books := db.books.map (fun b =>
      if b.id = bid then { b with average_rating := avg, review_count := cnt }
      else b) }

/-- `ReviewController._update_book_rating_stats` (lines 315-320): recompute
from the current review rows and persist on the book row. -/
def update_book_rating_stats (db : DB) (bid : ℕ) : DB :=
  let s := calculate_book_rating_stats db bid
  update_rating_stats db bid s.1 s.2

/-! ## Review operations (src/repositories/review_repository.py,
src/controllers/review_controller.py) -/

/-- Error payload a controller returns (`{"error": ..., "issues": ...,
"code": ...}`); absent dict keys are `[]` / `none`. -/
structure ControllerError where
  error : String
  issues : List String
  code : Option String
deriving Repr, DecidableEq

/-- `ReviewRepository.create_review` (lines 16-40): insert a row with the
next autoincrement id and commit. -/
def repo_create_review (db : DB) (user_id book_id : ℕ) (rating : ℤ)
    (title content : Option String) : DB × Review :=
  let r : Review :=
    { id := db.next_review_id, user_id := user_id, book_id := book_id
      rating := rating, title := title, content := content
      created_at := db.next_review_id }
  ({ db with reviews := db.reviews ++ [r], next_review_id := db.next_review_id + 1 }, r)

/-- `ReviewRepository.user_has_reviewed_book` (lines 42-50). -/
def user_has_reviewed_book (db : DB) (user_id book_id : ℕ) : Bool :=
  db.reviews.any (fun r => r.user_id = user_id ∧ r.book_id = book_id)

/-- The success path of `ReviewController.create_review`, with every
persisted state recorded: the trace holds the state after each
`self.db.commit()` — (1) the review insert in `repo_create_review`,
(2) the controller's commit after `update_legacy_fields` (which only touches
the unmodelled legacy mirror columns, so the modelled state is unchanged),
(3) the commit inside `_update_book_rating_stats`. -/
def create_review_commits (db : DB) (user_id book_id : ℕ) (rating : ℤ)
    (title content : Option String) : List DB × Review :=
  let (db1, r) := repo_create_review db user_id book_id rating title content
  let db2 := db1
  ([db1, db2, update_book_rating_stats db2 book_id], r)

/-- `ReviewController.create_review` (lines 19-66): validate, sanitize,
reject duplicates, then create and recompute the book's aggregates. -/
def create_review (db : DB) (user_id book_id : ℕ) (rating : ℤ)
    (title content : Option String) :
    Except ControllerError (List DB × Review) :=
  if (validate_review_data rating title content).length ≠ 0 then
    .error { error := "Invalid review data"
             issues := validate_review_data rating title content, code := none }
  else if user_has_reviewed_book db user_id book_id then
    .error { error := "User has already reviewed this book", issues := []
             code := none }
  else
    .ok (create_review_commits db user_id book_id rating
      (sanitize_string title (some 200)) (sanitize_string content (some 5000)))

/-- The final persisted state of a controller call (last commit), the
starting state when the call mutated nothing. -/
def finalState (db : DB) : Except ControllerError (List DB × Review) → DB
  | .error _ => db
  | .ok (trace, _) => trace.getLastD db

/-- `ReviewRepository.update_review` (lines 124-154): mutate the first row
matching `(review_id, user_id)`; `None` arguments leave the field unchanged. -/
def repo_update_review (db : DB) (review_id user_id : ℕ) (rating : Option ℤ)
    (title content : Option String) : Option (DB × Review) :=
  match db.reviews.find? (fun r => r.id = review_id ∧ r.user_id = user_id) with
  | none => none
  | some r0 =>
    let f : Review → Review := fun r =>
      { r with
        rating := match rating with | some x => x | none => r.rating
        title := match title with | some t => some t | none => r.title
        content := match content with | some c => some c | none => r.content }
    some ({ db with reviews :=
              updateFirst (fun r => r.id = review_id ∧ r.user_id = user_id) f db.reviews },
          f r0)

/-- The Python guard `rating or 5` on the optional rating: validation sees 5
when the rating is missing or zero. -/
def validationRating : Option ℤ → ℤ
  | some x => if x ≠ 0 then x else 5
  | none => 5

/-- The controller re-sanitizes only the provided optional strings
(`if title is not None else None`). -/
def sanitizeOpt (v : Option String) (maxLength : ℕ) : Option String :=
  match v with
  | some s => sanitize_string (some s) (some maxLength)
  | none => none

/-- `ReviewController.update_review` (lines 68-116): validate when any field
is provided, sanitize, update via the repository (`None` when the review
does not exist or belongs to another user), then recompute the affected
book's aggregates. -/
def update_review (db : DB) (review_id user_id : ℕ) (rating : Option ℤ)
    (title content : Option String) :
    Except ControllerError (Option DB) :=
  if (rating.isSome ∨ title.isSome ∨ content.isSome) ∧
      (validate_review_data (validationRating rating) title content).length ≠ 0 then
    .error { error := "Invalid review data"
             issues := validate_review_data (validationRating rating) title content
             code := none }
  else
    match repo_update_review db review_id user_id rating
        (sanitizeOpt title 200) (sanitizeOpt content 5000) with
    | none => .ok none
    | some (db1, r) => .ok (some (update_book_rating_stats db1 r.book_id))

/-- `ReviewRepository.delete_user_review` (lines 156-167). -/
def repo_delete_user_review (db : DB) (review_id user_id : ℕ) : DB × Bool :=
  match db.reviews.find? (fun r => r.id = review_id ∧ r.user_id = user_id) with
  | none => (db, false)
  | some _ =>
    ({ db with reviews :=
        deleteFirst (fun r => r.id = review_id ∧ r.user_id = user_id) db.reviews },
     true)

/-- `ReviewController.delete_review` (lines 118-137): fetch by id, check
ownership, delete, then recompute the book's aggregates. -/
def delete_review (db : DB) (review_id user_id : ℕ) : DB × Bool :=
  match db.reviews.find? (fun r => r.id = review_id) with
  | none => (db, false)
  | some r =>
    if r.user_id ≠ user_id then (db, false)
    else
      let (db1, success) := repo_delete_user_review db review_id user_id
      if success then (update_book_rating_stats db1 r.book_id, true)
      else (db1, false)

/-- `ReviewRepository.delete_all_book_reviews` (lines 268-273): bulk-delete
the book's review rows and commit — no aggregate recomputation happens. -/
def delete_all_book_reviews (db : DB) (book_id : ℕ) : DB × ℕ :=
  let cnt := (db.reviews.filter (fun r => r.book_id = book_id)).length
  ({ db with reviews := db.reviews.filter (fun r => ¬ r.book_id = book_id) }, cnt)

/-- `ReviewRepository.delete_all_user_reviews` (lines 275-280): likewise for
a user's review rows. -/
def delete_all_user_reviews (db : DB) (user_id : ℕ) : DB × ℕ :=
  let cnt := (db.reviews.filter (fun r => r.user_id = user_id)).length
  ({ db with reviews := db.reviews.filter (fun r => ¬ r.user_id = user_id) }, cnt)

/-- The review operations claim C1 quantifies over. -/
inductive ReviewOp where
  | create (user_id book_id : ℕ) (rating : ℤ) (title content : Option String)
  | update (review_id user_id : ℕ) (rating : Option ℤ) (title content : Option String)
  | delete (review_id user_id : ℕ)
  | deleteAllBook (book_id : ℕ)
  | deleteAllUser (user_id : ℕ)
deriving Repr, DecidableEq

/-- Whether the operation is one of the admin bulk deletions. -/
def ReviewOp.isBulk : ReviewOp → Bool
  | .deleteAllBook _ => true
  | .deleteAllUser _ => true
  | _ => false

/-- Final persisted state after one review operation (a rejected call leaves
the state unchanged). -/
def applyReviewOp (db : DB) : ReviewOp → DB
  | .create u b rating t c => finalState db (create_review db u b rating t c)
  | .update rid u rating t c =>
    match update_review db rid u rating t c with
    | .error _ => db
    | .ok none => db
    | .ok (some db') => db'
  | .delete rid u => (delete_review db rid u).1
  | .deleteAllBook b => (delete_all_book_reviews db b).1
  | .deleteAllUser u => (delete_all_user_reviews db u).1

/-- Final persisted state after a sequence of review operations. -/
def applyReviewOps (db : DB) : List ReviewOp → DB
  | [] => db
  | op :: ops => applyReviewOps (applyReviewOp db op) ops

/-- One book row stores the aggregate of the review rows `rs` referencing
it: their count and their mean rating (0 when there are none). -/
def bookStatsOk (rs : List Review) (b : Book) : Prop :=
  b.review_count = (ratingsOf rs b.id).length ∧
  b.average_rating = avgOf (ratingsOf rs b.id)

instance (rs : List Review) (b : Book) : Decidable (bookStatsOk rs b) := by
  unfold bookStatsOk; infer_instance

/-- The spec's aggregate invariant over the whole database. -/
def statsInv (db : DB) : Prop :=
  ∀ b ∈ db.books, bookStatsOk db.reviews b

instance (db : DB) : Decidable (statsInv db) := by
  unfold statsInv; infer_instance

/-! ## Reading progress (src/repositories/reading_progress_repository.py,
src/models/reading_progress_model.py,
src/controllers/reading_progress_controller.py) -/

/-- The percentage computation at repository lines 53-57:
`min(100, current_page / total_pages * 100)` when `total_pages` is truthy and
positive, else `0.0`. -/
def progressPct (current_page : ℤ) (total_pages : Option ℤ) : ℚ :=
  match total_pages with
  | some t => if t ≠ 0 ∧ t > 0 then min 100 ((current_page : ℚ) / (t : ℚ) * 100) else 0
  | none => 0

/-- The total used when inserting a new progress row with `total_pages`
omitted: `book.total_pages or book.nombre_pages if book else None`
(repository lines 34-37). -/
def bookTotalFallback (db : DB) (book_id : ℕ) : Option ℤ :=
  match db.books.find? (fun b => b.id = book_id) with
  | some bk => pyOrInt bk.total_pages bk.nombre_pages
  | none => none

/-- The total stored on the insert path: the argument when given, otherwise
the book fallback. -/
def insertTotal (db : DB) (book_id : ℕ) (total_pages : Option ℤ) : Option ℤ :=
  match total_pages with
  | some t => some t
  | none => bookTotalFallback db book_id

/-- The total stored on the update path: a truthy argument replaces the
row's total, otherwise the row keeps its own (repository lines 49-50). -/
def updateTotal (p : Progress) (total_pages : Option ℤ) : Option ℤ :=
  if intTruthy total_pages then total_pages else p.total_pages

/-- The mutation applied to an existing progress row. -/
def progressUpdateRow (current_page : ℤ) (total_pages : Option ℤ)
    (p : Progress) : Progress :=
  { p with current_page := current_page
           total_pages := updateTotal p total_pages
           progress_percentage := progressPct current_page (updateTotal p total_pages) }

/-- The fresh row built on the insert path. -/
def progressInsertRow (db : DB) (user_id book_id : ℕ) (current_page : ℤ)
    (total_pages : Option ℤ) : Progress :=
  { user_id := user_id, book_id := book_id, current_page := current_page
    total_pages := insertTotal db book_id total_pages
    progress_percentage := progressPct current_page (insertTotal db book_id total_pages) }

/-- `ReadingProgressRepository.create_or_update_progress` (lines 23-61):
upsert by `(user_id, book_id)`.  On insert with `total_pages` omitted the
total falls back to `book.total_pages or book.nombre_pages` (or `None`
without a book row); on update a falsy `total_pages` keeps the row's
existing total.  The percentage is then recomputed from the argument
`current_page` and the row's resulting total. -/
def create_or_update_progress (db : DB) (user_id book_id : ℕ)
    (current_page : ℤ) (total_pages : Option ℤ) : DB :=
  match db.progress.find? (fun p => p.user_id = user_id ∧ p.book_id = book_id) with
  | none =>
    { db with progress := db.progress ++
        [progressInsertRow db user_id book_id current_page total_pages] }
  | some _ =>
    { db with
      progress :=
        updateFirst (fun p => p.user_id = user_id ∧ p.book_id = book_id)
          (progressUpdateRow current_page total_pages) db.progress }

/-- `ReadingProgressController.update_reading_progress` (lines 19-46):
validate, then upsert via the repository. -/
def update_reading_progress (db : DB) (user_id book_id : ℕ)
    (current_page : ℤ) (total_pages : Option ℤ) :
    Except ControllerError DB :=
  if (validate_reading_progress current_page total_pages).length ≠ 0 then
    .error { error := "Invalid reading progress data"
             issues := validate_reading_progress current_page total_pages
             code := none }
  else
    .ok (create_or_update_progress db user_id book_id current_page total_pages)

/-- `ReadingProgressRepository.mark_book_as_finished` (lines 190-203):
`total_pages = book.total_pages or book.nombre_pages or 100`, then upsert
with `current_page = total_pages`; no-op when the book does not exist. -/
def mark_book_as_finished (db : DB) (user_id book_id : ℕ) : DB :=
  match db.books.find? (fun b => b.id = book_id) with
  | none => db
  | some bk =>
    let total := pyOrIntD (pyOrInt bk.total_pages bk.nombre_pages) 100
    create_or_update_progress db user_id book_id total (some total)

/-- `ReadingProgressRepository.delete_progress` (lines 180-188). -/
def delete_progress (db : DB) (user_id book_id : ℕ) : DB :=
  match db.progress.find? (fun p => p.user_id = user_id ∧ p.book_id = book_id) with
  | none => db
  | some _ =>
    { db with progress :=
        deleteFirst (fun p => p.user_id = user_id ∧ p.book_id = book_id) db.progress }

/-- `ReadingProgress.is_finished` (model lines 38-40). -/
def progress_is_finished (p : Progress) : Bool :=
  p.progress_percentage ≥ 100

/-- `ReadingProgress.is_in_progress` (model lines 46-49). -/
def progress_is_in_progress (p : Progress) : Bool :=
  0 < p.progress_percentage ∧ p.progress_percentage < 100

/-- `ReadingProgress.is_started` (model lines 42-44). -/
def progress_is_started (p : Progress) : Bool :=
  p.progress_percentage > 0

/-- `ReadingProgress.get_progress_status` (model lines 65-74). -/
def get_progress_status (p : Progress) : String :=
  if progress_is_finished p then "Finished"
  else if progress_is_in_progress p then "In Progress"
  else if progress_is_started p then "Started"
  else "Not Started"

/-- The reading-progress operations claim C4 quantifies over: the
controller-level upsert (validated), mark-as-finished, and deletion. -/
inductive ProgressOp where
  | update (user_id book_id : ℕ) (current_page : ℤ) (total_pages : Option ℤ)
  | finish (user_id book_id : ℕ)
  | delete (user_id book_id : ℕ)
deriving Repr, DecidableEq

/-- Final state after one progress operation (a rejected update leaves the
state unchanged). -/
def applyProgressOp (db : DB) : ProgressOp → DB
  | .update u b cur tp =>
    match update_reading_progress db u b cur tp with
    | .error _ => db
    | .ok db' => db'
  | .finish u b => mark_book_as_finished db u b
  | .delete u b => delete_progress db u b

/-- Final state after a sequence of progress operations. -/
def applyProgressOps (db : DB) : List ProgressOp → DB
  | [] => db
  | op :: ops => applyProgressOps (applyProgressOp db op) ops

/-- Row-level progress invariant established by the operations:
the percentage is in `[0, 100]`, and whenever the row's total is a known
positive page count, the percentage is 100 exactly when `current_page` has
reached (or passed) it. -/
def progressRowOk (p : Progress) : Prop :=
  0 ≤ p.progress_percentage ∧ p.progress_percentage ≤ 100 ∧
  ∀ t, p.total_pages = some t → 0 < t →
    (p.progress_percentage = 100 ↔ t ≤ p.current_page)

/-- The progress invariant over the whole database. -/
def progressInv (db : DB) : Prop :=
  ∀ p ∈ db.progress, progressRowOk p

/-! ## Pagination and search (src/repositories/book_repository.py,
src/repositories/review_repository.py, src/controllers/book_controller.py) -/

/-- A paginated repository result (the dict built at book_repository
lines 185-193 and review_repository lines 85-93). -/
structure PageResult (α : Type) where
  items : List α
  total_count : ℕ
  total_pages : ℕ
  current_page : ℕ
  page_size : ℕ
  has_next : Bool
  has_previous : Bool
deriving Repr, DecidableEq

/-- Case-insensitive substring containment, modelling `ILIKE '%pat%'`. -/
def containsCI (hay pat : String) : Bool :=
  ((strToLower hay).splitOn (strToLower pat)).length > 1

/-- The `or_`-filter of `advanced_search` (lines 140-148): title, description
or the space-joined author array matches the pattern; SQL comparisons with a
`NULL` column are not true. -/
def bookMatchesSearch (b : Book) (pat : String) : Bool :=
  containsCI b.titre pat ||
  (match b.description with
   | some d => containsCI d pat
   | none => false) ||
  (match b.author_names with
   | some l => containsCI (String.intercalate " " l) pat
   | none => false)

/-- Array overlap `&&` on a nullable array column (`NULL` overlaps nothing). -/
def arrayOverlap (col : Option (List String)) (arr : List String) : Bool :=
  match col with
  | some l => l.any (fun x => x ∈ arr)
  | none => false

/-- All filters of `advanced_search` (lines 137-166) applied to one row;
each filter is applied only when its argument is truthy, as in the source. -/
def advancedSearchFilter (search_text : Option String)
    (genre_filter author_filter : Option (List String))
    (year_from year_to : Option ℤ) (min_rating : Option ℚ) (b : Book) : Bool :=
  (if strTruthy search_text then bookMatchesSearch b (search_text.getD "") else true) &&
  (if listTruthy genre_filter then arrayOverlap b.genre_names (genre_filter.getD []) else true) &&
  (if listTruthy author_filter then arrayOverlap b.author_names (author_filter.getD []) else true) &&
  (if intTruthy year_from then
    match b.pub_year with
    | some y => decide (y ≥ year_from.getD 0)
    | none => false
   else true) &&
  (if intTruthy year_to then
    match b.pub_year with
    | some y => decide (y ≤ year_to.getD 0)
    | none => false
   else true) &&
  (if ratTruthy min_rating then decide (b.average_rating ≥ min_rating.getD 0) else true)

/-- Names the model class `Book` has as attributes (its mapped columns and
relationships), deciding the `hasattr(Book, sort_by)` guard of
`advanced_search` line 172.  The sorts reachable through the controller all
name mapped columns. -/
def bookAttrNames : List String :=
  ["id", "titre", "isbn", "date_publication", "description", "image_url",
   "nombre_pages", "langue", "editeur", "note_moyenne", "nombre_reviews",
   "created_at", "updated_at", "author_names", "genre_names", "content_path",
   "word_count", "total_pages", "average_rating", "review_count",
   "auteurs", "genres", "reviews", "favoris_par", "pages"]

/-- Ascending comparison for the sortable book columns the controller can
reach (`NULL` dates sort last, as in Postgres ascending order); for other
attributes the comparison is not materialised, which leaves the row order
unchanged (stable sort under a constant relation). -/
def bookColumnLE (col : String) (a b : Book) : Bool :=
  match col with
  | "titre" => a.titre ≤ b.titre
  | "average_rating" => decide (a.average_rating ≤ b.average_rating)
  | "created_at" => a.created_at ≤ b.created_at
  | "date_publication" =>
    match a.pub_year, b.pub_year with
    | some x, some y => decide (x ≤ y)
    | some _, none => true
    | none, some _ => false
    | none, none => true
  | _ => true

/-- The `ORDER BY` column `advanced_search` executes (lines 171-177): the
requested column when `Book` has the attribute, otherwise no ordering. -/
def advancedSearchOrderColumn (sort_by : String) : Option String :=
  if sort_by ∈ bookAttrNames then some sort_by else none

/-- `BookRepository.advanced_search` (lines 123-193): filter, count, order,
then slice with `offset = (page - 1) * page_size` and `limit = page_size`,
and report `has_next` / `has_previous` against
`total_pages = (total_count + page_size - 1) // page_size`. -/
def advanced_search (db : DB) (search_text : Option String)
    (genre_filter author_filter : Option (List String))
    (year_from year_to : Option ℤ) (min_rating : Option ℚ)
    (page page_size : ℕ) (sort_by sort_order : String) : PageResult Book :=
  let rows := db.books.filter
    (advancedSearchFilter search_text genre_filter author_filter year_from year_to min_rating)
  let total_count := rows.length
  let ordered := match advancedSearchOrderColumn sort_by with
    | none => rows
    | some col =>
      if strToLower sort_order = "desc" then
        rows.mergeSort (fun a b => bookColumnLE col b a)
      else
        rows.mergeSort (fun a b => bookColumnLE col a b)
  let items := (ordered.drop ((page - 1) * page_size)).take page_size
  let total_pages := (total_count + page_size - 1) / page_size
  { items := items, total_count := total_count, total_pages := total_pages
    current_page := page, page_size := page_size
    has_next := page < total_pages, has_previous := page > 1 }

/-- Ascending comparison for the review sort columns of `get_book_reviews`
(lines 63-69): `rating` sorts by rating, anything else by `created_at`. -/
def reviewColumnLE (col : String) (a b : Review) : Bool :=
  match col with
  | "rating" => decide (a.rating ≤ b.rating)
  | _ => a.created_at ≤ b.created_at

/-- `ReviewRepository.get_book_reviews` (lines 52-93). -/
def get_book_reviews (db : DB) (book_id : ℕ) (page page_size : ℕ)
    (sort_by sort_order : String) : PageResult Review :=
  let rows := db.reviews.filter (fun r => r.book_id = book_id)
  let ordered :=
    if strToLower sort_order = "desc" then
      rows.mergeSort (fun a b => reviewColumnLE sort_by b a)
    else
      rows.mergeSort (fun a b => reviewColumnLE sort_by a b)
  let total_count := rows.length
  let items := (ordered.drop ((page - 1) * page_size)).take page_size
  let total_pages := (total_count + page_size - 1) / page_size
  { items := items, total_count := total_count, total_pages := total_pages
    current_page := page, page_size := page_size
    has_next := page < total_pages, has_previous := page > 1 }

/-- The sort allow-list `BookController.get_books_paginated` passes to
`validate_sort` (book_controller line 44). -/
def allowedBookSortFields : List String :=
  ["titre", "average_rating", "created_at", "date_publication"]

/-- The outcome of `BookController.get_books_paginated`: the repository page
together with the `ORDER BY` column of the executed query. -/
structure BooksPageOutcome where
  result : PageResult Book
  order_column : Option String
deriving Repr, DecidableEq

/-- `BookController.get_books_paginated` (book_controller lines 18-58):
validate pagination, search and sort parameters (any failure rejects the
request with a `VALIDATION_ERROR` payload), then run `advanced_search` with
the validated values.  The cache layer in front is a pure read-through and
is not modelled. -/
def get_books_paginated (db : DB) (page page_size : ℤ)
    (search : Option String) (genre_filter author_filter : Option (List String))
    (year_from year_to : Option ℤ) (min_rating : Option ℚ)
    (sort_by sort_order : String) :
    Except ControllerError BooksPageOutcome :=
  if ¬ (validate_pagination page page_size 100).is_valid then
    .error { error := "Validation failed"
             issues := (validate_pagination page page_size 100).issues
             code := some "VALIDATION_ERROR" }
  else if (validate_search_params search genre_filter author_filter
      year_from year_to min_rating).length ≠ 0 then
    .error { error := "Validation failed"
             issues := validate_search_params search genre_filter author_filter
               year_from year_to min_rating
             code := some "VALIDATION_ERROR" }
  else if ¬ (validate_sort_params sort_by sort_order allowedBookSortFields).is_valid then
    .error { error := "Validation failed"
             issues := (validate_sort_params sort_by sort_order allowedBookSortFields).issues
             code := some "VALIDATION_ERROR" }
  else
    .ok { result := advanced_search db search genre_filter author_filter
            year_from year_to min_rating
            (validate_pagination page page_size 100).page.toNat
            (validate_pagination page page_size 100).page_size.toNat
            (validate_sort_params sort_by sort_order allowedBookSortFields).sort_by
            (validate_sort_params sort_by sort_order allowedBookSortFields).sort_order
          order_column := advancedSearchOrderColumn
            (validate_sort_params sort_by sort_order allowedBookSortFields).sort_by }

/-! ## Rating distribution (src/repositories/review_repository.py 184-200) -/

/-- Python `dict` assignment `d[k] = v`: replace an existing key in place,
otherwise append (dicts preserve insertion order). -/
def dictSet (d : List (ℤ × ℕ)) (k : ℤ) (v : ℕ) : List (ℤ × ℕ) :=
  if d.any (fun kv => kv.1 = k) then
    d.map (fun kv => if kv.1 = k then (k, v) else kv)
  else
    d ++ [(k, v)]

/-- Lookup in the Python-dict model. -/
def dictGet (d : List (ℤ × ℕ)) (k : ℤ) : Option ℕ :=
  (d.find? (fun kv => kv.1 = k)).map (fun kv => kv.2)

/-- The distinct values of a list, keeping first occurrences — the groups of
a SQL `GROUP BY` in a definite order. -/
def distinctVals : List ℤ → List ℤ
  | [] => []
  | a :: l => a :: distinctVals (l.filter (fun x => x ≠ a))
termination_by l => l.length
decreasing_by
  exact Nat.lt_succ_of_le (List.length_filter_le _ _)

/-- `ReviewRepository.get_rating_distribution` (lines 184-200): group the
book's reviews by rating, then start from `{1:0, ..., 5:0}` and write each
group's count into the dict. -/
def get_rating_distribution (db : DB) (book_id : ℕ) : List (ℤ × ℕ) :=
  let rs := bookRatings db book_id
  let grouped := (distinctVals rs).map
    (fun v => (v, (rs.filter (fun x => x = v)).length))
  grouped.foldl (fun d kv => dictSet d kv.1 kv.2)
    [(1, 0), (2, 0), (3, 0), (4, 0), (5, 0)]

/-! ## Route error mapping (src/routes/review_routes.py 48-57) -/

/-- The HTTP status the `POST /reviews/books/{book_id}` route raises for a
controller error: 409 only when the payload carries the code
`DUPLICATE_REVIEW`, otherwise 400. -/
def createReviewErrorStatus (e : ControllerError) : ℕ :=
  if e.code = some "DUPLICATE_REVIEW" then 409 else 400

/-! ## Cache helper (src/helpers/cache_helper.py)

A Redis client is modelled as its key-value store plus per-call failure
oracles: a raised exception in `get`/`setex`/`delete`/`keys` (connection
loss, server error) is the oracle saying `true`.  `self.redis_client` being
`None` is the `Option` being `none`.  Each `try` body is embedded as an
`Except`-valued function, and each public method as the body with the
source's `except Exception: pass` wrapper. -/

structure RedisClient where
  store : List (String × String)
  keysResult : String → List String
  getFails : String → Bool
  setFails : String → Bool
  delFails : List String → Bool
  keysFails : String → Bool

/-- `redis.get`: raises when the oracle says so, else the stored value. -/
def redisGet (c : RedisClient) (k : String) : Except Unit (Option String) :=
  if c.getFails k then .error () else
    .ok ((c.store.find? (fun kv => kv.1 = k)).map (fun kv => kv.2))

/-- `redis.setex`: raises or stores the value under the key. -/
def redisSetex (c : RedisClient) (k v : String) : Except Unit RedisClient :=
  if c.setFails k then .error () else
    .ok { c with store := (c.store.filter (fun kv => kv.1 ≠ k)) ++ [(k, v)] }

/-- `redis.delete(*keys)`: raises or removes the keys. -/
def redisDel (c : RedisClient) (ks : List String) : Except Unit RedisClient :=
  if c.delFails ks then .error () else
    .ok { c with store := c.store.filter (fun kv => kv.1 ∉ ks) }

/-- `redis.keys(pattern)`: raises or returns the server's matches. -/
def redisKeys (c : RedisClient) (pat : String) : Except Unit (List String) :=
  if c.keysFails pat then .error () else .ok (c.keysResult pat)

/-- The `try` body of `CacheHelper.get` (lines 25-30): fetch, and when the
reply is truthy, `json.loads` it (`decode`, which may itself raise). -/
def cacheGetBody {α : Type} (decode : String → Except Unit α)
    (c : RedisClient) (k : String) : Except Unit (Option α) := do
  let d ← redisGet c k
  match d with
  | some s => if s ≠ "" then (decode s).map some else pure none
  | none => pure none

/-- `CacheHelper.get` (lines 21-31): `None` without a client, and any raise
inside the body falls through to `return None`. -/
def cache_get {α : Type} (decode : String → Except Unit α)
    (client : Option RedisClient) (k : String) : Option α :=
  match client with
  | none => none
  | some c =>
    match cacheGetBody decode c k with
    | .error _ => none
    | .ok v => v

/-- `CacheHelper.set` (lines 33-41): no-op without a client or on a raise;
the result is the client state after the call. -/
def cache_set (client : Option RedisClient) (k v : String) :
    Option RedisClient :=
  match client with
  | none => none
  | some c =>
    match redisSetex c k v with
    | .error _ => some c
    | .ok c' => some c'

/-- `CacheHelper.delete` (lines 43-50). -/
def cache_delete (client : Option RedisClient) (k : String) :
    Option RedisClient :=
  match client with
  | none => none
  | some c =>
    match redisDel c [k] with
    | .error _ => some c
    | .ok c' => some c'

/-- The `try` body of `CacheHelper.delete_pattern` (lines 56-59): list the
matching keys (may raise), and delete them when there are any (may raise). -/
def cacheDeletePatternBody (c : RedisClient) (pat : String) :
    Except Unit RedisClient := do
  let ks ← redisKeys c pat
  if ¬ ks.isEmpty then redisDel c ks else pure c

/-- `CacheHelper.delete_pattern` (lines 52-61). -/
def cache_delete_pattern (client : Option RedisClient) (pat : String) :
    Option RedisClient :=
  match client with
  | none => none
  | some c =>
    match cacheDeletePatternBody c pat with
    | .error _ => some c
    | .ok c' => some c'

/-- `CacheHelper.invalidate_book_cache` (lines 63-72): delete four patterns
in sequence, each call individually shielded by `delete_pattern`. -/
def invalidate_book_cache (client : Option RedisClient) (book_id : ℕ) :
    Option RedisClient :=
  let patterns := ["*book*" ++ toString book_id ++ "*", "*books_paginated*",
                   "*popular_books*", "*search_books*"]
  patterns.foldl (fun cl pat => cache_delete_pattern cl pat) client

/-- `CacheHelper.invalidate_user_cache` (lines 74-82). -/
def invalidate_user_cache (client : Option RedisClient) (user_id : ℕ) :
    Option RedisClient :=
  let patterns := ["*user*" ++ toString user_id ++ "*", "*user_favorites*",
                   "*user_reviews*"]
  patterns.foldl (fun cl pat => cache_delete_pattern cl pat) client

/-! ## List-level lemmas about the row-update primitives -/

theorem ratingsOf_append_single (rs : List Review) (r : Review) (i : ℕ) :
    ratingsOf (rs ++ [r]) i =
      if r.book_id = i then ratingsOf rs i ++ [r.rating] else ratingsOf rs i := by
  unfold ratingsOf
  rw [List.filter_append]
  by_cases h : r.book_id = i
  · simp [h]
  · simp [h]

theorem ratingsOf_updateFirst_of_ne (l : List Review) (p : Review → Bool)
    (f : Review → Review) (i : ℕ)
    (hpres : ∀ a, (f a).book_id = a.book_id)
    (hne : ∀ a, l.find? p = some a → a.book_id ≠ i) :
    ratingsOf (updateFirst p f l) i = ratingsOf l i := by
  induction l with
  | nil => rfl
  | cons x xs ih =>
    by_cases hx : p x
    · have hfind : (x :: xs).find? p = some x := List.find?_cons_of_pos _ hx
      have hxne : x.book_id ≠ i := hne x hfind
      have hfxne : (f x).book_id ≠ i := by rw [hpres x]; exact hxne
      unfold updateFirst
      rw [if_pos hx]
      unfold ratingsOf
      rw [List.filter_cons, List.filter_cons]
      simp [hxne, hfxne]
    · have hstep : ∀ a, xs.find? p = some a → a.book_id ≠ i := by
        intro a ha
        exact hne a (by rw [List.find?_cons_of_neg _ hx]; exact ha)
      have hrec := ih hstep
      unfold updateFirst
      rw [if_neg hx]
      unfold ratingsOf at hrec ⊢
      rw [List.filter_cons, List.filter_cons]
      by_cases hxi : x.book_id = i
      · simp [hxi, hrec]
      · simp [hxi, hrec]

theorem ratingsOf_deleteFirst_of_ne (l : List Review) (p : Review → Bool)
    (i : ℕ)
    (hne : ∀ a, l.find? p = some a → a.book_id ≠ i) :
    ratingsOf (deleteFirst p l) i = ratingsOf l i := by
  induction l with
  | nil => rfl
  | cons x xs ih =>
    by_cases hx : p x
    · have hxne : x.book_id ≠ i := hne x (List.find?_cons_of_pos _ hx)
      unfold deleteFirst
      rw [if_pos hx]
      unfold ratingsOf
      rw [List.filter_cons]
      simp [hxne]
    · have hstep : ∀ a, xs.find? p = some a → a.book_id ≠ i := by
        intro a ha
        exact hne a (by rw [List.find?_cons_of_neg _ hx]; exact ha)
      have hrec := ih hstep
      unfold deleteFirst
      rw [if_neg hx]
      unfold ratingsOf at hrec ⊢
      rw [List.filter_cons, List.filter_cons]
      by_cases hxi : x.book_id = i
      · simp [hxi, hrec]
      · simp [hxi, hrec]

/-- The row `.first()` returns for a filter on the primary key alone is also
the row `.first()` returns for the filter strengthened by a further test the
row passes. -/
theorem find?_strengthen (l : List Review) (rid u : ℕ) (r : Review)
    (h : l.find? (fun x => decide (x.id = rid)) = some r)
    (hu : r.user_id = u) :
    l.find? (fun x => decide (x.id = rid ∧ x.user_id = u)) = some r := by
  induction l with
  | nil => simp at h
  | cons x xs ih =>
    by_cases hx : x.id = rid
    · have : (x :: xs).find? (fun x => decide (x.id = rid)) = some x :=
        List.find?_cons_of_pos _ (by simp [hx])
      rw [this] at h
      injection h with h
      subst h
      exact List.find?_cons_of_pos _ (by simp [hx, hu])
    · rw [List.find?_cons_of_neg _ (by simp [hx])] at h
      rw [List.find?_cons_of_neg _ (by simp [hx])]
      exact ih h

/-! ## Aggregate-preservation lemmas -/

theorem update_book_rating_stats_reviews (db : DB) (bid : ℕ) :
    (update_book_rating_stats db bid).reviews = db.reviews := rfl

/-- After `_update_book_rating_stats`, the whole database satisfies the
aggregate invariant as soon as every book other than the recomputed one
already did. -/
theorem statsInv_update_book_rating_stats (db : DB) (bid : ℕ)
    (h : ∀ b ∈ db.books, b.id ≠ bid → bookStatsOk db.reviews b) :
    statsInv (update_book_rating_stats db bid) := by
  intro b' hb'
  rw [update_book_rating_stats_reviews]
  unfold update_book_rating_stats update_rating_stats at hb'
  simp only [List.mem_map] at hb'
  obtain ⟨b, hb, rfl⟩ := hb'
  by_cases hid : b.id = bid
  · rw [if_pos hid]
    unfold bookStatsOk calculate_book_rating_stats bookRatings
    refine ⟨?_, ?_⟩
    · simp [hid]
    · simp [hid, avgOf]
  · rw [if_neg hid]
    exact h b hb hid

/-- The invariant carries over an unchanged-books / extended-reviews step:
appending a review for book `bid` keeps every other book's aggregate
correct. -/
theorem bookStatsOk_append_of_ne (rs : List Review) (r : Review) (b : Book)
    (hne : b.id ≠ r.book_id) (h : bookStatsOk rs b) :
    bookStatsOk (rs ++ [r]) b := by
  unfold bookStatsOk at h ⊢
  rw [ratingsOf_append_single, if_neg (fun hbb => hne hbb.symm)]
  exact h

/-- Aggregate correctness of one book transports along any reviews change
that leaves that book's rating list unchanged. -/
theorem bookStatsOk_congr (rs rs' : List Review) (b : Book)
    (hr : ratingsOf rs' b.id = ratingsOf rs b.id) (h : bookStatsOk rs b) :
    bookStatsOk rs' b := by
  unfold bookStatsOk at h ⊢
  rw [hr]
  exact h

/-- Preservation of the aggregate invariant by a single non-bulk review
operation. -/
theorem statsInv_applyReviewOp (db : DB) (op : ReviewOp)
    (hop : op.isBulk = false) (h : statsInv db) :
    statsInv (applyReviewOp db op) := by
  cases op with
  | create u b rating t c =>
    simp only [applyReviewOp]
    cases hres : create_review db u b rating t c with
    | error e => simpa [finalState, hres] using h
    | ok tr =>
      unfold create_review at hres
      split at hres
      · exact absurd hres (by simp)
      · split at hres
        · exact absurd hres (by simp)
        · injection hres with hres
          subst hres
          simp only [finalState]
          unfold create_review_commits repo_create_review
          simp only [List.getLastD]
          apply statsInv_update_book_rating_stats
          intro b' hb' hne
          exact bookStatsOk_append_of_ne _ _ _ hne (h b' hb')
  | update rid u rating t c =>
    simp only [applyReviewOp]
    cases hres : update_review db rid u rating t c with
    | error e => simpa [hres] using h
    | ok o =>
      cases o with
      | none => simpa [hres] using h
      | some db' =>
        simp only [hres]
        unfold update_review at hres
        split at hres
        · exact absurd hres (by simp)
        · unfold repo_update_review at hres
          cases hff : db.reviews.find?
              (fun r => decide (r.id = rid ∧ r.user_id = u)) with
          | none =>
            rw [hff] at hres
            exact absurd hres (by simp)
          | some r1 =>
            rw [hff] at hres
            injection hres with hres
            injection hres with hres
            rw [← hres]
            apply statsInv_update_book_rating_stats
            intro b' hb' hne
            refine bookStatsOk_congr db.reviews _ b' ?_ (h b' hb')
            exact ratingsOf_updateFirst_of_ne _ _ _ _ (fun a => rfl)
              (by intro a ha; rw [hff] at ha; injection ha with ha; subst ha
                  exact Ne.symm hne)
  | delete rid u =>
    simp only [applyReviewOp]
    unfold delete_review
    cases hf : db.reviews.find? (fun r => decide (r.id = rid)) with
    | none => simpa using h
    | some r =>
      simp only
      by_cases hu : r.user_id ≠ u
      · simp only [if_pos hu]
        exact h
      · simp only [if_neg hu]
        push_neg at hu
        have hf2 : db.reviews.find? (fun x => decide (x.id = rid ∧ x.user_id = u)) =
            some r := find?_strengthen db.reviews rid u r hf hu
        unfold repo_delete_user_review
        simp only [hf2]
        apply statsInv_update_book_rating_stats
        intro b' hb' hne
        simp only at hb' hne
        have hb0 : bookStatsOk db.reviews b' := h b' hb'
        unfold bookStatsOk at hb0 ⊢
        simp only
        rw [ratingsOf_deleteFirst_of_ne _ _ _
          (by intro a ha; rw [hf2] at ha; injection ha with ha; subst ha
              exact Ne.symm hne)]
        exact hb0
  | deleteAllBook b => simp [ReviewOp.isBulk] at hop
  | deleteAllUser u => simp [ReviewOp.isBulk] at hop

/-! ## Concrete database states used as witnesses and counterexamples -/

/-- A book row with no reviews and correctly zeroed aggregates. -/
def exBook : Book :=
  { id := 1, titre := "Dune", description := none, author_names := none
    genre_names := none, pub_year := none, average_rating := 0
    review_count := 0, total_pages := some 100, nombre_pages := none
    created_at := 0 }

/-- A database holding just `exBook`. -/
def exDB : DB :=
  { books := [exBook], reviews := [], progress := [], next_review_id := 1 }

/-! ## C1: the aggregate invariant across review operations -/

/-- C1 (amended): after every sequence of `create_review`, `update_review`
and `delete_review` controller operations, every book's stored
`average_rating` / `review_count` equal the mean and count of its remaining
review rows (0 / 0 when none remain).  The admin bulk deletions are excluded
— see the counterexample. -/
theorem statsInv_applyReviewOps (db : DB) (ops : List ReviewOp)
    (hops : ∀ op ∈ ops, op.isBulk = false) (h : statsInv db) :
    statsInv (applyReviewOps db ops) := by
  induction ops generalizing db with
  | nil => exact h
  | cons op ops ih =>
    exact ih (applyReviewOp db op)
      (fun o ho => hops o (List.mem_cons_of_mem _ ho))
      (statsInv_applyReviewOp db op (hops op (List.mem_cons_self op ops)) h)

/-- Witness for C1: a concrete create / update / delete run from a concrete
consistent state keeps the invariant. -/
theorem statsInv_applyReviewOps_witness :
    statsInv (applyReviewOps exDB
      [.create 1 1 5 none none, .update 1 1 (some 3) none none, .delete 1 1]) :=
  statsInv_applyReviewOps exDB
    [.create 1 1 5 none none, .update 1 1 (some 3) none none, .delete 1 1]
    (by decide) (by decide)

/-- A consequence of the invariant, used to refute it on concrete states
without evaluating rational arithmetic: the stored counts equal the row
counts. -/
theorem statsInv_count_map (db : DB) (h : statsInv db) :
    db.books.map (fun b => b.review_count) =
    db.books.map (fun b => (ratingsOf db.reviews b.id).length) :=
  List.map_congr_left (fun b hb => (h b hb).1)

/-- Counterexample for C1 as frozen: `delete_all_book_reviews` removes the
rows but leaves the stored aggregates untouched, so the invariant fails
after a create followed by the bulk deletion (the book still stores
`review_count = 1` — and `average_rating = 5` — with zero review rows). -/
theorem statsInv_fails_after_delete_all_book_reviews :
    ¬ statsInv (applyReviewOps exDB
      [.create 1 1 5 none none, .deleteAllBook 1]) := by
  intro h
  have hmap := statsInv_count_map _ h
  have h1 : (applyReviewOps exDB
      [.create 1 1 5 none none, .deleteAllBook 1]).books.map
      (fun b => b.review_count) = [1] := rfl
  have h2 : (applyReviewOps exDB
      [.create 1 1 5 none none, .deleteAllBook 1]).books.map
      (fun b => (ratingsOf (applyReviewOps exDB
        [.create 1 1 5 none none, .deleteAllBook 1]).reviews b.id).length) = [0] := rfl
  rw [h1, h2] at hmap
  exact absurd hmap (by decide)

/-! ## C2: per-mutation aggregate recomputation -/

/-- The aggregates of the book row(s) with id `bid` agree with its review
rows. -/
def statsCorrectFor (db : DB) (bid : ℕ) : Prop :=
  ∀ b ∈ db.books, b.id = bid → bookStatsOk db.reviews b

instance (db : DB) (bid : ℕ) : Decidable (statsCorrectFor db bid) := by
  unfold statsCorrectFor; infer_instance

/-- After `_update_book_rating_stats`, the recomputed book's stored
aggregates match its review rows. -/
theorem statsCorrectFor_update_book_rating_stats (db : DB) (bid : ℕ) :
    statsCorrectFor (update_book_rating_stats db bid) bid := by
  intro b' hb' hid
  rw [update_book_rating_stats_reviews]
  unfold update_book_rating_stats update_rating_stats at hb'
  simp only [List.mem_map] at hb'
  obtain ⟨b, hb, rfl⟩ := hb'
  by_cases h : b.id = bid
  · rw [if_pos h]
    unfold bookStatsOk calculate_book_rating_stats bookRatings
    refine ⟨?_, ?_⟩
    · simp [h]
    · simp [h, avgOf]
  · rw [if_neg h] at hid ⊢
    exact absurd hid h

/-- C2 (amended): each of create / update / delete recomputes the affected
book's aggregates from its remaining review rows — mean of the ratings and
their count, `0 / 0` with no rows — and persists them in the follow-up
commit of the same request (not atomically with the review mutation; see the
commit-trace counterexample). -/
theorem review_mutation_recomputes_aggregates
    (db : DB) (u b : ℕ) (rating : ℤ) (t c : Option String)
    (rid : ℕ) (r? : Option ℤ) (t' c' : Option String) :
    (∀ tr r, create_review db u b rating t c = .ok (tr, r) →
      statsCorrectFor (finalState db (create_review db u b rating t c)) b) ∧
    (∀ r0, db.reviews.find? (fun x => decide (x.id = rid ∧ x.user_id = u)) = some r0 →
      ∀ db', update_review db rid u r? t' c' = .ok (some db') →
        statsCorrectFor db' r0.book_id) ∧
    (∀ r0, db.reviews.find? (fun x => decide (x.id = rid)) = some r0 →
      (delete_review db rid u).2 = true →
      statsCorrectFor (delete_review db rid u).1 r0.book_id) := by
  refine ⟨?_, ?_, ?_⟩
  · intro tr r hres
    rw [hres]
    unfold create_review at hres
    split at hres
    · exact absurd hres (by simp)
    · split at hres
      · exact absurd hres (by simp)
      · simp only [finalState]
        injection hres with hres
        have htr : tr = (create_review_commits db u b rating
            (sanitize_string t (some 200)) (sanitize_string c (some 5000))).1 := by
          rw [hres]
        subst htr
        exact statsCorrectFor_update_book_rating_stats _ b
  · intro r0 hff db' hres
    unfold update_review at hres
    split at hres
    · exact absurd hres (by simp)
    · unfold repo_update_review at hres
      rw [hff] at hres
      injection hres with hres
      injection hres with hres
      rw [← hres]
      exact statsCorrectFor_update_book_rating_stats _ _
  · intro r0 hf hsucc
    unfold delete_review at hsucc ⊢
    revert hsucc
    cases hf' : db.reviews.find? (fun x => decide (x.id = rid)) with
    | none =>
      rw [hf'] at hf
      exact absurd hf (by simp)
    | some r1 =>
      rw [hf'] at hf
      injection hf with hf
      subst hf
      simp only
      intro hsucc
      by_cases hu : r1.user_id ≠ u
      · rw [if_pos hu] at hsucc
        exact absurd hsucc (by simp)
      · rw [if_neg hu] at hsucc ⊢
        push_neg at hu
        have hf2 := find?_strengthen db.reviews rid u r1 hf' hu
        have hrepo : repo_delete_user_review db rid u =
            ({ db with
                reviews :=
                  deleteFirst (fun x => decide (x.id = rid ∧ x.user_id = u)) db.reviews },
             true) := by
          unfold repo_delete_user_review
          rw [hf2]
        rw [hrepo] at hsucc ⊢
        simp only at hsucc ⊢
        exact statsCorrectFor_update_book_rating_stats _ _

/-- Witness for C2 at the spec's example: creating a rating-5 review on a
book with zero prior reviews ends with stored `average_rating = 5.0`,
`review_count = 1`, matching the recomputation property. -/
theorem review_mutation_recomputes_aggregates_witness :
    statsCorrectFor (finalState exDB (create_review exDB 1 1 5 none none)) 1 ∧
    (finalState exDB (create_review exDB 1 1 5 none none)).books.map
      (fun b => b.average_rating) = [5] ∧
    (finalState exDB (create_review exDB 1 1 5 none none)).books.map
      (fun b => b.review_count) = [1] :=
  ⟨(review_mutation_recomputes_aggregates exDB 1 1 5 none none 0 none none none).1
      (create_review_commits exDB 1 1 5 none none).1
      (create_review_commits exDB 1 1 5 none none).2 rfl,
   by
    have h0 : (finalState exDB (create_review exDB 1 1 5 none none)).books.map
        (fun b => b.average_rating) = [((5 : ℤ) : ℚ) / ((1 : ℕ) : ℚ)] := rfl
    rw [h0]
    norm_num,
   rfl⟩

/-- Counterexample for C2 as frozen ("persisted atomically with the review
mutation"): in the commit trace of the example create, the first persisted
state already contains the new review row for book 1 while the book still
stores `review_count = 0`, `average_rating = 0` — the aggregates are only
written by a later separate commit. -/
theorem create_review_commit_trace_not_atomic :
    ((create_review exDB 1 1 5 none none).toOption.map (fun tr =>
      tr.1.head?.map (fun dbA =>
        ((dbA.reviews.filter (fun r => r.book_id = 1)).length,
         dbA.books.map (fun b => (b.review_count, b.average_rating)))))) =
      some (some (1, [(0, 0)])) := by
  rfl

/-! ## C3 / C4: reading-progress upsert and invariant -/

/-- `updateFirst` commutes with `.first()` when the mutation preserves the
filter. -/
theorem find?_updateFirst {α : Type} (p : α → Bool) (f : α → α) (l : List α)
    (hf : ∀ a, p a = true → p (f a) = true) :
    (updateFirst p f l).find? p = (l.find? p).map f := by
  induction l with
  | nil => rfl
  | cons x xs ih =>
    by_cases hx : p x
    · unfold updateFirst
      rw [if_pos hx, List.find?_cons_of_pos _ (hf x hx),
        List.find?_cons_of_pos _ hx]
      rfl
    · unfold updateFirst
      rw [if_neg hx, List.find?_cons_of_neg _ hx, List.find?_cons_of_neg _ hx]
      exact ih

/-- Membership after `updateFirst`: a row is either untouched or the image
of a matched row. -/
theorem mem_updateFirst {α : Type} (p : α → Bool) (f : α → α) (l : List α)
    (x : α) (hx : x ∈ updateFirst p f l) : x ∈ l ∨ ∃ a ∈ l, x = f a := by
  induction l with
  | nil => exact absurd hx (by simp [updateFirst])
  | cons y ys ih =>
    unfold updateFirst at hx
    by_cases hy : p y
    · rw [if_pos hy] at hx
      rcases List.mem_cons.mp hx with h | h
      · exact Or.inr ⟨y, List.mem_cons_self y ys, h⟩
      · exact Or.inl (List.mem_cons_of_mem _ h)
    · rw [if_neg hy] at hx
      rcases List.mem_cons.mp hx with h | h
      · exact Or.inl (h ▸ List.mem_cons_self y ys)
      · rcases ih h with h' | ⟨a, ha, rfl⟩
        · exact Or.inl (List.mem_cons_of_mem _ h')
        · exact Or.inr ⟨a, List.mem_cons_of_mem _ ha, rfl⟩

/-- `deleteFirst` only removes rows. -/
theorem mem_deleteFirst {α : Type} (p : α → Bool) (l : List α) (x : α)
    (hx : x ∈ deleteFirst p l) : x ∈ l := by
  induction l with
  | nil => exact absurd hx (by simp [deleteFirst])
  | cons y ys ih =>
    unfold deleteFirst at hx
    by_cases hy : p y
    · rw [if_pos hy] at hx
      exact List.mem_cons_of_mem _ hx
    · rw [if_neg hy] at hx
      rcases List.mem_cons.mp hx with h | h
      · exact h ▸ List.mem_cons_self y ys
      · exact List.mem_cons_of_mem _ (ih h)

/-- Passing `validate_reading_progress` forces a non-negative current page. -/
theorem current_page_nonneg_of_valid (cur : ℤ) (tp : Option ℤ)
    (h : (validate_reading_progress cur tp).length = 0) : 0 ≤ cur := by
  by_contra hneg
  push_neg at hneg
  unfold validate_reading_progress at h
  rw [if_pos hneg] at h
  simp at h

/-- Any row whose percentage was computed by the repository formula from a
non-negative current page satisfies the row invariant. -/
theorem progressRowOk_of_pct (p : Progress) (hcur : 0 ≤ p.current_page)
    (hpct : p.progress_percentage = progressPct p.current_page p.total_pages) :
    progressRowOk p := by
  unfold progressRowOk
  rw [hpct]
  unfold progressPct
  cases htp : p.total_pages with
  | none => exact ⟨le_refl 0, by norm_num, by simp⟩
  | some t =>
    simp only
    by_cases ht : t ≠ 0 ∧ t > 0
    · rw [if_pos ht]
      obtain ⟨-, htpos⟩ := ht
      have htq : (0 : ℚ) < (t : ℚ) := by exact_mod_cast htpos
      have hcq : (0 : ℚ) ≤ (p.current_page : ℚ) := by exact_mod_cast hcur
      have hnn : (0 : ℚ) ≤ (p.current_page : ℚ) / (t : ℚ) * 100 :=
        mul_nonneg (div_nonneg hcq htq.le) (by norm_num)
      refine ⟨le_min (by norm_num) hnn, min_le_left _ _, ?_⟩
      intro t2 ht2 htpos2
      injection ht2 with ht2
      subst ht2
      constructor
      · intro h100
        by_contra hgt
        push_neg at hgt
        have hcc : (p.current_page : ℚ) < (t : ℚ) := by exact_mod_cast hgt
        have hlt : (p.current_page : ℚ) / (t : ℚ) * 100 < 100 := by
          have hd : (p.current_page : ℚ) / (t : ℚ) < 1 := (div_lt_one htq).mpr hcc
          linarith
        rw [min_eq_right hlt.le] at h100
        exact absurd h100 (ne_of_lt hlt)
      · intro hle
        have hle' : (t : ℚ) ≤ (p.current_page : ℚ) := by exact_mod_cast hle
        have h1 : (1 : ℚ) ≤ (p.current_page : ℚ) / (t : ℚ) :=
          (one_le_div htq).mpr hle'
        have h100 : (100 : ℚ) ≤ (p.current_page : ℚ) / (t : ℚ) * 100 := by
          linarith
        exact min_eq_left h100
    · rw [if_neg ht]
      refine ⟨le_refl 0, by norm_num, ?_⟩
      intro t2 ht2 htpos2
      injection ht2 with ht2
      subst ht2
      exact absurd ⟨ne_of_gt htpos2, htpos2⟩ ht

/-- The mark-as-finished row (current page equal to the stored total)
satisfies the row invariant for any total. -/
theorem progressRowOk_finish (p : Progress) (t : ℤ)
    (hcur : p.current_page = t) (htp : p.total_pages = some t)
    (hpct : p.progress_percentage = progressPct p.current_page p.total_pages) :
    progressRowOk p := by
  by_cases htpos : 0 < t
  · exact progressRowOk_of_pct p (by rw [hcur]; exact htpos.le) hpct
  · unfold progressRowOk
    rw [hpct]
    unfold progressPct
    rw [htp]
    simp only
    have hcond : ¬ (t ≠ 0 ∧ t > 0) := fun hc => htpos hc.2
    rw [if_neg hcond]
    refine ⟨le_refl 0, by norm_num, ?_⟩
    intro t2 ht2 htpos2
    injection ht2 with ht2
    subst ht2
    exact absurd htpos2 htpos

/-- The finished-book default total is never zero. -/
theorem pyOrIntD_ne_zero (a : Option ℤ) : pyOrIntD a 100 ≠ 0 := by
  cases a with
  | none => simp [pyOrIntD]
  | some n =>
    unfold pyOrIntD
    simp only
    by_cases hn : n ≠ 0
    · rw [if_pos hn]; exact hn
    · rw [if_neg hn]; norm_num

/-- The repository upsert with a validated (non-negative) current page
preserves the progress invariant. -/
theorem progressInv_create_or_update (db : DB) (u b : ℕ) (cur : ℤ)
    (tp : Option ℤ) (hcur : 0 ≤ cur) (h : progressInv db) :
    progressInv (create_or_update_progress db u b cur tp) := by
  unfold create_or_update_progress progressInv
  cases hf : db.progress.find? (fun p => decide (p.user_id = u ∧ p.book_id = b)) with
  | none =>
    intro p hp
    rcases List.mem_append.mp hp with hp | hp
    · exact h p hp
    · rw [List.mem_singleton] at hp
      subst hp
      exact progressRowOk_of_pct _ hcur rfl
  | some p0 =>
    intro p hp
    rcases mem_updateFirst _ _ _ _ hp with hp | ⟨a, _, rfl⟩
    · exact h p hp
    · exact progressRowOk_of_pct _ hcur rfl

/-- The upsert performed by mark-as-finished (current page equal to the
nonzero total) preserves the progress invariant, whatever the total's
sign. -/
theorem progressInv_create_or_update_eq (db : DB) (u b : ℕ) (t : ℤ)
    (hne : t ≠ 0) (h : progressInv db) :
    progressInv (create_or_update_progress db u b t (some t)) := by
  unfold create_or_update_progress progressInv
  cases hf : db.progress.find? (fun p => decide (p.user_id = u ∧ p.book_id = b)) with
  | none =>
    intro p hp
    rcases List.mem_append.mp hp with hp | hp
    · exact h p hp
    · rw [List.mem_singleton] at hp
      subst hp
      exact progressRowOk_finish _ t rfl rfl rfl
  | some p0 =>
    intro p hp
    rcases mem_updateFirst _ _ _ _ hp with hp | ⟨a, _, rfl⟩
    · exact h p hp
    · refine progressRowOk_finish _ t rfl ?_ rfl
      show updateTotal a (some t) = some t
      unfold updateTotal intTruthy
      rw [if_pos (by simpa using hne)]

/-- Preservation of the progress invariant by a single progress
operation. -/
theorem progressInv_applyProgressOp (db : DB) (op : ProgressOp)
    (h : progressInv db) : progressInv (applyProgressOp db op) := by
  cases op with
  | update u b cur tp =>
    simp only [applyProgressOp]
    cases hres : update_reading_progress db u b cur tp with
    | error e => exact h
    | ok db' =>
      unfold update_reading_progress at hres
      split at hres
      · exact absurd hres (by simp)
      · rename_i hval
        injection hres with hres
        subst hres
        push_neg at hval
        exact progressInv_create_or_update db u b cur tp
          (current_page_nonneg_of_valid cur tp hval) h
  | finish u b =>
    simp only [applyProgressOp]
    unfold mark_book_as_finished
    cases hb : db.books.find? (fun bk => decide (bk.id = b)) with
    | none => exact h
    | some bk =>
      simp only
      exact progressInv_create_or_update_eq db u b _
        (pyOrIntD_ne_zero (pyOrInt bk.total_pages bk.nombre_pages)) h
  | delete u b =>
    simp only [applyProgressOp]
    unfold delete_progress
    cases hf : db.progress.find? (fun p => decide (p.user_id = u ∧ p.book_id = b)) with
    | none => exact h
    | some p0 =>
      intro p hp
      exact h p (mem_deleteFirst _ _ _ hp)

/-- C4 (amended): after any sequence of progress operations (validated
update, mark-as-finished, delete) from a state satisfying it, every
reading-progress row has `0 ≤ progress_percentage ≤ 100`, and when the
row's `total_pages` is a known positive count, the percentage is 100 exactly
when `current_page ≥ total_pages` (not `=`; see the counterexample for the
frozen claim's equality). -/
theorem progressInv_applyProgressOps (db : DB) (ops : List ProgressOp)
    (h : progressInv db) : progressInv (applyProgressOps db ops) := by
  induction ops generalizing db with
  | nil => exact h
  | cons op ops ih => exact ih _ (progressInv_applyProgressOp db op h)

/-- Witness for C4: a concrete operation sequence from the one-book
database. -/
theorem progressInv_applyProgressOps_witness :
    progressInv (applyProgressOps exDB
      [.update 1 1 50 (some 100), .finish 1 1, .update 1 1 30 none, .delete 1 1]) :=
  progressInv_applyProgressOps exDB
    [.update 1 1 50 (some 100), .finish 1 1, .update 1 1 30 none, .delete 1 1]
    (fun p hp => absurd hp (by simp [exDB]))

/-- Counterexample for C4 as frozen: updating to `current_page = 150` with
`total_pages` omitted passes validation (the cap check is skipped), the row
falls back to the book's stored total 100, and the clamped percentage is 100
although `current_page ≠ total_pages` — refuting the claimed equality. -/
theorem progress_pct_100_without_page_match :
    ((update_reading_progress exDB 1 1 150 none).toOption.bind (fun db' =>
      db'.progress.find? (fun p => decide (p.user_id = 1 ∧ p.book_id = 1)))).map
      (fun p => (p.current_page, p.total_pages, p.progress_percentage)) =
      some (150, some 100, progressPct 150 (some 100)) ∧
    progressPct 150 (some 100) = 100 ∧ (150 : ℤ) ≠ 100 := by
  refine ⟨rfl, ?_, by decide⟩
  unfold progressPct
  simp only
  rw [if_pos (by norm_num)]
  rw [min_eq_left (by norm_num)]

/-- C3 (amended): `update_reading_progress` upserts the row keyed by
`(user, book)`.  On insert, an omitted `total_pages` falls back to the
book's stored total (`insertTotal` = argument if given, else
`bookTotalFallback`); on update of an existing row, an omitted (or zero)
`total_pages` keeps the row's existing total, not the book's.  Either way
the stored percentage is `min(100, current_page / total * 100)` computed
from the row's resulting total (0 when that total is unknown or
non-positive). -/
theorem update_reading_progress_upserts (db : DB) (u b : ℕ) (cur : ℤ)
    (tp : Option ℤ) (db' : DB)
    (hok : update_reading_progress db u b cur tp = .ok db') :
    (db.progress.find? (fun p => decide (p.user_id = u ∧ p.book_id = b)) = none →
      db'.progress.find? (fun p => decide (p.user_id = u ∧ p.book_id = b)) =
        some { user_id := u, book_id := b, current_page := cur
               total_pages := insertTotal db b tp
               progress_percentage := progressPct cur (insertTotal db b tp) }) ∧
    (∀ p0, db.progress.find? (fun p => decide (p.user_id = u ∧ p.book_id = b)) =
        some p0 →
      db'.progress.find? (fun p => decide (p.user_id = u ∧ p.book_id = b)) =
        some { p0 with
               current_page := cur
               total_pages := updateTotal p0 tp
               progress_percentage := progressPct cur (updateTotal p0 tp) }) := by
  unfold update_reading_progress at hok
  split at hok
  · exact absurd hok (by simp)
  · injection hok with hok
    subst hok
    constructor
    · intro hnone
      unfold create_or_update_progress
      rw [hnone]
      simp only
      rw [List.find?_append, hnone]
      rw [List.find?_cons_of_pos _ (by simp [progressInsertRow])]
      rfl
    · intro p0 hsome
      unfold create_or_update_progress
      rw [hsome]
      simp only
      rw [find?_updateFirst (fun p => decide (p.user_id = u ∧ p.book_id = b))
        (progressUpdateRow cur tp) db.progress (by intro a ha; exact ha), hsome]
      rfl

/-- Witness for C3 at the spec's example: a fresh update to page 50 of 100
stores `progress_percentage = 50` and reports status "In Progress". -/
theorem update_reading_progress_upserts_witness :
    (update_reading_progress exDB 1 1 50 (some 100)).toOption.bind (fun db' =>
      db'.progress.find? (fun p => decide (p.user_id = 1 ∧ p.book_id = 1))) =
      some { user_id := 1, book_id := 1, current_page := 50
             total_pages := insertTotal exDB 1 (some 100)
             progress_percentage := progressPct 50 (insertTotal exDB 1 (some 100)) } ∧
    progressPct 50 (insertTotal exDB 1 (some 100)) = 50 ∧
    get_progress_status
      { user_id := 1, book_id := 1, current_page := 50
        total_pages := insertTotal exDB 1 (some 100)
        progress_percentage := progressPct 50 (insertTotal exDB 1 (some 100)) } =
      "In Progress" := by
  have hpct : progressPct 50 (insertTotal exDB 1 (some 100)) = 50 := by
    have h0 : insertTotal exDB 1 (some 100) = some 100 := rfl
    rw [h0]
    unfold progressPct
    simp only
    rw [if_pos (by norm_num)]
    rw [min_eq_right (by norm_num)]
    norm_num
  refine ⟨?_, hpct, ?_⟩
  · exact (update_reading_progress_upserts exDB 1 1 50 (some 100)
      (create_or_update_progress exDB 1 1 50 (some 100)) rfl).1 rfl
  · unfold get_progress_status progress_is_finished progress_is_in_progress
      progress_is_started
    simp only [hpct]
    rw [if_neg (by norm_num), if_pos (by norm_num)]

/-- The database for the C3 counterexample: the book stores total 200 while
the user's existing progress row carries total 50. -/
def exDB3 : DB :=
  { books := [{ exBook with total_pages := some 200 }]
    reviews := []
    progress := [{ user_id := 1, book_id := 1, current_page := 5
                   total_pages := some 50, progress_percentage := 10 }]
    next_review_id := 1 }

/-- Counterexample for C3 as frozen ("when total_pages is omitted it falls
back to the book's stored total"): updating the existing row with
`total_pages` omitted keeps the row's total 50 (percentage 20), whereas the
claimed fallback to the book's stored total 200 would give percentage 5. -/
theorem update_progress_ignores_book_total_on_update :
    ((update_reading_progress exDB3 1 1 10 none).toOption.bind (fun db' =>
      db'.progress.find? (fun p => decide (p.user_id = 1 ∧ p.book_id = 1)))).map
      (fun p => p.total_pages) = some (some 50) ∧
    ((update_reading_progress exDB3 1 1 10 none).toOption.bind (fun db' =>
      db'.progress.find? (fun p => decide (p.user_id = 1 ∧ p.book_id = 1)))).map
      (fun p => p.progress_percentage) = some (progressPct 10 (some 50)) ∧
    bookTotalFallback exDB3 1 = some 200 ∧
    progressPct 10 (some 50) = 20 ∧
    progressPct 10 (some 200) = 5 ∧
    (20 : ℚ) ≠ 5 := by
  refine ⟨rfl, rfl, rfl, ?_, ?_, by norm_num⟩
  · unfold progressPct
    simp only
    rw [if_pos (by norm_num)]
    rw [min_eq_right (by norm_num)]
    norm_num
  · unfold progressPct
    simp only
    rw [if_pos (by norm_num)]
    rw [min_eq_right (by norm_num)]
    norm_num

/-! ## C5: one review per user per book -/

/-- The exact payload the controller returns for a duplicate review. -/
def duplicateReviewPayload : ControllerError :=
  { error := "User has already reviewed this book", issues := [], code := none }

/-- C5 (amended): when the rating/title/content pass validation and the user
already has a review for the book, `create_review` returns the
duplicate-review error (which carries no `code` field), the route maps it to
HTTP 400 (the 409 branch for code `DUPLICATE_REVIEW` never fires), and the
database is unchanged — no new review row is created. -/
theorem create_review_duplicate_rejected (db : DB) (u b : ℕ) (rating : ℤ)
    (t c : Option String)
    (hv : (validate_review_data rating t c).length = 0)
    (hd : user_has_reviewed_book db u b = true) :
    create_review db u b rating t c = .error duplicateReviewPayload ∧
    createReviewErrorStatus duplicateReviewPayload = 400 ∧
    applyReviewOp db (.create u b rating t c) = db := by
  have h1 : create_review db u b rating t c = .error duplicateReviewPayload := by
    unfold create_review
    rw [if_neg (by simp [hv]), if_pos hd]
    rfl
  refine ⟨h1, rfl, ?_⟩
  simp only [applyReviewOp, h1, finalState]

/-- A database in which user 1 has already reviewed book 1. -/
def exDBdup : DB :=
  { books := [exBook]
    reviews := [{ id := 1, user_id := 1, book_id := 1, rating := 5
                  title := none, content := none, created_at := 1 }]
    progress := [], next_review_id := 2 }

/-- Witness for C5: a concrete second attempt is rejected with the code-less
payload, status 400, and no state change. -/
theorem create_review_duplicate_rejected_witness :
    create_review exDBdup 1 1 4 none none = .error duplicateReviewPayload ∧
    createReviewErrorStatus duplicateReviewPayload = 400 ∧
    applyReviewOp exDBdup (.create 1 1 4 none none) = exDBdup :=
  create_review_duplicate_rejected exDBdup 1 1 4 none none (by decide) (by decide)

/-- Counterexample for C5 as frozen ("with a distinct code"): the duplicate
error payload carries no code at all, so the route's
`DUPLICATE_REVIEW ⇒ 409` mapping cannot fire and the status is 400. -/
theorem create_review_duplicate_no_code :
    (match create_review exDBdup 1 1 4 none none with
     | .error e => e.code
     | .ok _ => some "unreachable") = none ∧
    (match create_review exDBdup 1 1 4 none none with
     | .error e => createReviewErrorStatus e
     | .ok _ => 0) = 400 := by
  exact ⟨rfl, rfl⟩

/-! ## C6: pagination consistency -/

/-- `(n + s - 1) / s` — the `total_pages` formula of the repositories — is
the ceiling of `n / s` for a positive page size. -/
theorem total_pages_eq_ceil (n s : ℕ) (hs : 1 ≤ s) :
    (((n + s - 1) / s : ℕ) : ℤ) = ⌈(n : ℚ) / (s : ℚ)⌉ := by
  have hs0 : 0 < s := hs
  have hsq : (0 : ℚ) < (s : ℚ) := by exact_mod_cast hs0
  have hsz : (1 : ℤ) ≤ (s : ℤ) := by exact_mod_cast hs
  obtain ⟨k, hk⟩ : ∃ k, (n + s - 1) / s = k := ⟨_, rfl⟩
  rw [hk]
  by_cases hn : n = 0
  · subst hn
    have h0 : k = 0 := by
      rw [← hk]
      exact Nat.div_eq_of_lt (by omega)
    subst h0
    simp
  · have hn1 : 1 ≤ n := Nat.one_le_iff_ne_zero.mpr hn
    have hle : k * s ≤ n + s - 1 := by
      rw [← hk]
      exact Nat.div_mul_le_self _ _
    have hub : n + s - 1 < (k + 1) * s := by
      rw [← hk]
      have hmod := Nat.div_add_mod (n + s - 1) s
      have hmlt := Nat.mod_lt (n + s - 1) hs0
      have hexp : ((n + s - 1) / s + 1) * s = s * ((n + s - 1) / s) + s := by ring
      omega
    have hleZ : (k : ℤ) * (s : ℤ) ≤ (n : ℤ) + (s : ℤ) - 1 := by
      zify [show (1 : ℕ) ≤ n + s by omega] at hle
      linarith
    have hubZ : (n : ℤ) + (s : ℤ) - 1 < ((k : ℤ) + 1) * (s : ℤ) := by
      zify [show (1 : ℕ) ≤ n + s by omega] at hub
      linarith
    apply le_antisymm
    · have h1 : (k : ℤ) - 1 < ⌈(n : ℚ) / (s : ℚ)⌉ := by
        rw [Int.lt_ceil, lt_div_iff₀ hsq]
        have hz : ((k : ℤ) - 1) * (s : ℤ) < (n : ℤ) := by nlinarith
        exact_mod_cast hz
      omega
    · rw [Int.ceil_le, div_le_iff₀ hsq]
      have hz : (n : ℤ) ≤ (k : ℤ) * (s : ℤ) := by nlinarith
      exact_mod_cast hz

/-- C6: each paginated listing (book advanced search and book-review
listing) returns at most `page_size` items, `has_next` is true exactly when
the page number is below `⌈total_count / page_size⌉`, and `has_previous` is
true exactly when the page number exceeds 1. -/
theorem paginated_listing_consistent (db : DB)
    (search : Option String) (gf af : Option (List String))
    (yf yt : Option ℤ) (mr : Option ℚ) (bid page page_size : ℕ)
    (sb so sb2 so2 : String) (hs : 1 ≤ page_size) :
    ((advanced_search db search gf af yf yt mr page page_size sb so).items.length
        ≤ page_size ∧
      ((advanced_search db search gf af yf yt mr page page_size sb so).has_next = true ↔
        (page : ℤ) <
          ⌈((advanced_search db search gf af yf yt mr page page_size sb so).total_count : ℚ) /
            (page_size : ℚ)⌉) ∧
      ((advanced_search db search gf af yf yt mr page page_size sb so).has_previous = true ↔
        1 < page)) ∧
    ((get_book_reviews db bid page page_size sb2 so2).items.length ≤ page_size ∧
      ((get_book_reviews db bid page page_size sb2 so2).has_next = true ↔
        (page : ℤ) <
          ⌈((get_book_reviews db bid page page_size sb2 so2).total_count : ℚ) /
            (page_size : ℚ)⌉) ∧
      ((get_book_reviews db bid page page_size sb2 so2).has_previous = true ↔
        1 < page)) := by
  constructor
  · unfold advanced_search
    refine ⟨List.length_take_le _ _, ?_, by simp⟩
    simp only [decide_eq_true_eq]
    rw [← total_pages_eq_ceil _ page_size hs]
    exact_mod_cast Iff.rfl
  · unfold get_book_reviews
    refine ⟨List.length_take_le _ _, ?_, by simp⟩
    simp only [decide_eq_true_eq]
    rw [← total_pages_eq_ceil _ page_size hs]
    exact_mod_cast Iff.rfl

/-- Witness for C6: concrete listings over a three-review book, page 1 of
size 2. -/
theorem paginated_listing_consistent_witness :
    ((advanced_search exDB none none none none none none 1 2 "titre" "asc").items.length
        ≤ 2 ∧
      ((advanced_search exDB none none none none none none 1 2 "titre" "asc").has_next = true ↔
        (1 : ℤ) <
          ⌈((advanced_search exDB none none none none none none 1 2 "titre" "asc").total_count : ℚ) /
            ((2 : ℕ) : ℚ)⌉) ∧
      ((advanced_search exDB none none none none none none 1 2 "titre" "asc").has_previous = true ↔
        1 < 1)) ∧
    ((get_book_reviews exDBdup 1 1 2 "created_at" "desc").items.length ≤ 2 ∧
      ((get_book_reviews exDBdup 1 1 2 "created_at" "desc").has_next = true ↔
        (1 : ℤ) <
          ⌈((get_book_reviews exDBdup 1 1 2 "created_at" "desc").total_count : ℚ) /
            ((2 : ℕ) : ℚ)⌉) ∧
      ((get_book_reviews exDBdup 1 1 2 "created_at" "desc").has_previous = true ↔
        1 < 1)) :=
  paginated_listing_consistent exDB none none none none none none 1 1 2
    "titre" "asc" "created_at" "desc" (by decide) |>.imp
    (fun h => h) (fun _ =>
      (paginated_listing_consistent exDBdup none none none none none none 1 1 2
        "titre" "asc" "created_at" "desc" (by decide)).2)

/-! ## C7: pagination clamping -/

/-- C7: for every integer `page` / `page_size` (zero and negatives
included), the values `validate_pagination` hands back — the ones the
controllers use to compute offset and limit — satisfy `page ≥ 1` and
`1 ≤ page_size ≤ max_page_size` (100 by default). -/
theorem validate_pagination_clamps (page page_size max_page_size : ℤ)
    (hmax : 1 ≤ max_page_size) :
    1 ≤ (validate_pagination page page_size max_page_size).page ∧
    1 ≤ (validate_pagination page page_size max_page_size).page_size ∧
    (validate_pagination page page_size max_page_size).page_size ≤ max_page_size := by
  unfold validate_pagination
  exact ⟨le_max_left 1 page, le_min (le_max_left 1 page_size) hmax,
    min_le_right _ _⟩

/-- Witness for C7 at a hostile input: page −7, size 0, default max 100. -/
theorem validate_pagination_clamps_witness :
    1 ≤ (validate_pagination (-7) 0 100).page ∧
    1 ≤ (validate_pagination (-7) 0 100).page_size ∧
    (validate_pagination (-7) 0 100).page_size ≤ 100 :=
  validate_pagination_clamps (-7) 0 100 (by norm_num)

/-! ## C8: sort allow-list -/

/-- A sort field that passes `validate_sort_params` is in the allow-list. -/
theorem sort_valid_mem (sort_by sort_order : String) (fields : List String)
    (h : (validate_sort_params sort_by sort_order fields).is_valid = true) :
    sort_by ∈ fields := by
  unfold validate_sort_params at h
  by_cases hmem : sort_by ∈ fields
  · exact hmem
  · exfalso
    simp only [if_neg hmem] at h
    simp [List.length_append] at h

/-- C8: for every request, if `sort_by` is outside the allow-list the
request is rejected with a validation error; when the request succeeds, the
executed query's `ORDER BY` column is exactly the requested field and lies
in the allow-list. -/
theorem books_sort_allowlisted (db : DB) (page page_size : ℤ)
    (search : Option String) (gf af : Option (List String))
    (yf yt : Option ℤ) (mr : Option ℚ) (sort_by sort_order : String) :
    (sort_by ∉ allowedBookSortFields →
      ∃ e, get_books_paginated db page page_size search gf af yf yt mr
        sort_by sort_order = .error e ∧ e.code = some "VALIDATION_ERROR") ∧
    (∀ res, get_books_paginated db page page_size search gf af yf yt mr
        sort_by sort_order = .ok res →
      res.order_column = some sort_by ∧ sort_by ∈ allowedBookSortFields) := by
  constructor
  · intro hmem
    unfold get_books_paginated
    by_cases h1 : ¬ (validate_pagination page page_size 100).is_valid
    · rw [if_pos h1]
      exact ⟨_, rfl, rfl⟩
    · rw [if_neg h1]
      by_cases h2 : (validate_search_params search gf af yf yt mr).length ≠ 0
      · rw [if_pos h2]
        exact ⟨_, rfl, rfl⟩
      · rw [if_neg h2]
        have h3 : ¬ (validate_sort_params sort_by sort_order
            allowedBookSortFields).is_valid := by
          intro hv
          exact hmem (sort_valid_mem _ _ _ (by simpa using hv))
        rw [if_pos (by simpa using h3)]
        exact ⟨_, rfl, rfl⟩
  · intro res hres
    unfold get_books_paginated at hres
    split at hres
    · exact absurd hres (by simp)
    · split at hres
      · exact absurd hres (by simp)
      · split at hres
        · exact absurd hres (by simp)
        · rename_i h1 h2 h3
          have hvalid : (validate_sort_params sort_by sort_order
              allowedBookSortFields).is_valid = true := by
            simpa using h3
          have hmem : sort_by ∈ allowedBookSortFields :=
            sort_valid_mem _ _ _ hvalid
          have hsb : (validate_sort_params sort_by sort_order
              allowedBookSortFields).sort_by = sort_by := by
            unfold validate_sort_params
            simp only [if_pos hmem]
          have hattr : sort_by ∈ bookAttrNames := by
            have hmem5 : sort_by = "titre" ∨ sort_by = "average_rating" ∨
                sort_by = "created_at" ∨ sort_by = "date_publication" := by
              simpa [allowedBookSortFields] using hmem
            rcases hmem5 with rfl | rfl | rfl | rfl <;> decide
          injection hres with hres
          rw [← hres]
          refine ⟨?_, hmem⟩
          show advancedSearchOrderColumn (validate_sort_params sort_by sort_order
            allowedBookSortFields).sort_by = some sort_by
          rw [hsb]
          unfold advancedSearchOrderColumn
          rw [if_pos hattr]

/-- Witness for C8: a disallowed field ("isbn") is rejected; an allowed one
("titre") reaches the repository and orders by exactly that column. -/
theorem books_sort_allowlisted_witness :
    (∃ e, get_books_paginated exDB 1 20 none none none none none none
        "isbn" "asc" = .error e ∧ e.code = some "VALIDATION_ERROR") ∧
    (∃ res, get_books_paginated exDB 1 20 none none none none none none
        "titre" "asc" = .ok res ∧ res.order_column = some "titre" ∧
        "titre" ∈ allowedBookSortFields) := by
  have hres : get_books_paginated exDB 1 20 none none none none none none
      "titre" "asc" =
      .ok { result := advanced_search exDB none none none none none none
              (validate_pagination 1 20 100).page.toNat
              (validate_pagination 1 20 100).page_size.toNat
              (validate_sort_params "titre" "asc" allowedBookSortFields).sort_by
              (validate_sort_params "titre" "asc" allowedBookSortFields).sort_order
            order_column := advancedSearchOrderColumn
              (validate_sort_params "titre" "asc" allowedBookSortFields).sort_by } := by
    unfold get_books_paginated
    rw [if_neg (by decide), if_neg (by decide), if_neg (by decide)]
  refine ⟨(books_sort_allowlisted exDB 1 20 none none none none none none
      "isbn" "asc").1 (by decide), ⟨_, hres, ?_⟩⟩
  exact (books_sort_allowlisted exDB 1 20 none none none none none none
    "titre" "asc").2 _ hres

/-! ## C9: cache helper never raises -/

/-- C9: every `CacheHelper` operation returns normally: with no Redis client
each is a no-op (`get` returns `None`), and whenever the underlying call
raises (the `try` body evaluates to an error), `get` returns `None` and the
mutating operations leave the client state untouched.  The composites
`invalidate_book_cache` / `invalidate_user_cache` are likewise no-ops when
their pattern lookups raise. -/
theorem cache_helper_total_safety {α : Type} (decode : String → Except Unit α)
    (k v pat : String) (c : RedisClient) (book_id user_id : ℕ) :
    (cache_get decode none k = none) ∧
    (cache_set none k v = none) ∧
    (cache_delete none k = none) ∧
    (cache_delete_pattern none pat = none) ∧
    (invalidate_book_cache none book_id = none) ∧
    (invalidate_user_cache none user_id = none) ∧
    (∀ e, cacheGetBody decode c k = .error e →
      cache_get decode (some c) k = none) ∧
    (c.setFails k = true → cache_set (some c) k v = some c) ∧
    (c.delFails [k] = true → cache_delete (some c) k = some c) ∧
    (∀ e, cacheDeletePatternBody c pat = .error e →
      cache_delete_pattern (some c) pat = some c) ∧
    ((∀ q, c.keysFails q = true) →
      invalidate_book_cache (some c) book_id = some c) ∧
    ((∀ q, c.keysFails q = true) →
      invalidate_user_cache (some c) user_id = some c) := by
  have hstep : ∀ q, c.keysFails q = true →
      cache_delete_pattern (some c) q = some c := by
    intro q hq
    unfold cache_delete_pattern cacheDeletePatternBody
    simp only
    rw [show redisKeys c q = Except.error () from by simp [redisKeys, hq]]
    rfl
  refine ⟨rfl, rfl, rfl, rfl, rfl, rfl, ?_, ?_, ?_, ?_, ?_, ?_⟩
  · intro e he
    simp [cache_get, he]
  · intro h
    simp [cache_set, redisSetex, h]
  · intro h
    simp [cache_delete, redisDel, h]
  · intro e he
    simp [cache_delete_pattern, he]
  · intro hall
    unfold invalidate_book_cache
    simp only [List.foldl]
    rw [hstep _ (hall _), hstep _ (hall _), hstep _ (hall _), hstep _ (hall _)]
  · intro hall
    unfold invalidate_user_cache
    simp only [List.foldl]
    rw [hstep _ (hall _), hstep _ (hall _), hstep _ (hall _)]

/-- A Redis client whose every call raises. -/
def exClient : RedisClient :=
  { store := [("a", "1")]
    keysResult := fun _ => []
    getFails := fun _ => true
    setFails := fun _ => true
    delFails := fun _ => true
    keysFails := fun _ => true }

/-- Witness for C9 on a concrete always-raising client. -/
theorem cache_helper_total_safety_witness :
    cache_get (fun s => Except.ok s) none "k" = (none : Option String) ∧
    cache_get (fun s => Except.ok s) (some exClient) "k" = none ∧
    cache_set (some exClient) "k" "v" = some exClient ∧
    cache_delete (some exClient) "k" = some exClient ∧
    cache_delete_pattern (some exClient) "*books_paginated*" = some exClient ∧
    invalidate_book_cache (some exClient) 7 = some exClient := by
  have T := cache_helper_total_safety (fun s => Except.ok s) "k" "v"
    "*books_paginated*" exClient 7 7
  exact ⟨T.1, T.2.2.2.2.2.2.1 () rfl, T.2.2.2.2.2.2.2.1 rfl,
    T.2.2.2.2.2.2.2.2.1 rfl, T.2.2.2.2.2.2.2.2.2.1 () rfl,
    T.2.2.2.2.2.2.2.2.2.2.1 (fun q => rfl)⟩

/-! ## C10: rating distribution -/

theorem mem_distinctVals (l : List ℤ) (a : ℤ) :
    a ∈ distinctVals l ↔ a ∈ l := by
  have main : ∀ n (l : List ℤ), l.length = n → ∀ a : ℤ,
      (a ∈ distinctVals l ↔ a ∈ l) := by
    intro n
    induction n using Nat.strong_induction_on with
    | _ n ih =>
      intro l hl a
      cases l with
      | nil => simp [distinctVals]
      | cons x xs =>
        rw [distinctVals]
        have hlt : (xs.filter (fun y => y ≠ x)).length < n := by
          have := List.length_filter_le (fun y => decide (y ≠ x)) xs
          simp at hl
          omega
        have hrec := ih _ hlt (xs.filter (fun y => y ≠ x)) rfl a
        simp only [List.mem_cons, hrec, List.mem_filter, decide_eq_true_eq]
        by_cases hax : a = x
        · simp [hax]
        · simp [hax]
  exact main l.length l rfl a

theorem nodup_distinctVals (l : List ℤ) : (distinctVals l).Nodup := by
  have main : ∀ n (l : List ℤ), l.length = n → (distinctVals l).Nodup := by
    intro n
    induction n using Nat.strong_induction_on with
    | _ n ih =>
      intro l hl
      cases l with
      | nil => simp [distinctVals]
      | cons x xs =>
        rw [distinctVals]
        have hlt : (xs.filter (fun y => y ≠ x)).length < n := by
          have := List.length_filter_le (fun y => decide (y ≠ x)) xs
          simp at hl
          omega
        refine List.Nodup.cons ?_ (ih _ hlt _ rfl)
        intro hmem
        have := (mem_distinctVals _ x).mp hmem
        simp [List.mem_filter] at this
  exact main l.length l rfl

/-- Updating key `j` leaves the lookup of a different key unchanged. -/
theorem dictGet_dictSet_ne (d : List (ℤ × ℕ)) (j k : ℤ) (v : ℕ)
    (hne : j ≠ k) : dictGet (dictSet d j v) k = dictGet d k := by
  unfold dictGet dictSet
  by_cases hany : d.any (fun kv => kv.1 = j)
  · rw [if_pos hany]
    clear hany
    congr 1
    induction d with
    | nil => rfl
    | cons kv l ih =>
      simp only [List.map_cons]
      by_cases hj : kv.1 = j
      · rw [if_pos hj]
        rw [List.find?_cons_of_neg _ (by simp [hne]),
          List.find?_cons_of_neg _ (by simp [hj]; exact hj ▸ hne)]
        exact ih
      · rw [if_neg hj]
        by_cases hk : kv.1 = k
        · rw [List.find?_cons_of_pos _ (by simp [hk]),
            List.find?_cons_of_pos _ (by simp [hk])]
        · rw [List.find?_cons_of_neg _ (by simp [hk]),
            List.find?_cons_of_neg _ (by simp [hk])]
          exact ih
  · rw [if_neg hany]
    congr 1
    rw [List.find?_append]
    have h2 : ([(j, v)].find? (fun kv => kv.1 = k)) = none := by
      simp [List.find?, hne]
    rw [h2]
    exact Option.or_none

/-- After `d[k] = v`, the lookup of `k` returns `v`. -/
theorem dictGet_dictSet_self (d : List (ℤ × ℕ)) (j : ℤ) (v : ℕ) :
    dictGet (dictSet d j v) j = some v := by
  unfold dictGet dictSet
  by_cases hany : d.any (fun kv => kv.1 = j)
  · rw [if_pos hany]
    rw [List.any_eq_true] at hany
    obtain ⟨kv0, hkv0, hkey⟩ := hany
    simp only [decide_eq_true_eq] at hkey
    induction d with
    | nil => exact absurd hkv0 (by simp)
    | cons kv l ih =>
      simp only [List.map_cons]
      by_cases hj : kv.1 = j
      · rw [if_pos hj]
        rw [List.find?_cons_of_pos _ (by simp)]
        rfl
      · rw [if_neg hj]
        rw [List.find?_cons_of_neg _ (by simp [hj])]
        rcases List.mem_cons.mp hkv0 with h | h
        · exact absurd (h ▸ hkey) hj
        · exact ih h
  · rw [if_neg hany]
    rw [List.find?_append]
    have h1 : (d.find? (fun kv => kv.1 = j)) = none := by
      rw [List.find?_eq_none]
      intro kv hkv
      simp only [decide_eq_true_eq]
      intro hk
      exact hany (List.any_eq_true.mpr ⟨kv, hkv, by simp [hk]⟩)
    rw [h1]
    simp [List.find?]

/-- `dictSet` on an existing key preserves the key list. -/
theorem dictSet_keys_of_mem (d : List (ℤ × ℕ)) (j : ℤ) (v : ℕ)
    (hj : d.any (fun kv => kv.1 = j) = true) :
    (dictSet d j v).map Prod.fst = d.map Prod.fst := by
  unfold dictSet
  rw [if_pos hj, List.map_map]
  apply List.map_congr_left
  intro kv _
  by_cases h : kv.1 = j
  · simp [h]
  · simp [h]

/-- Folding `dictSet` over pairs whose keys already exist preserves the key
list. -/
theorem foldl_dictSet_keys (l d : List (ℤ × ℕ))
    (hl : ∀ kv ∈ l, kv.1 ∈ d.map Prod.fst) :
    (l.foldl (fun d kv => dictSet d kv.1 kv.2) d).map Prod.fst =
      d.map Prod.fst := by
  induction l generalizing d with
  | nil => rfl
  | cons kv l ih =>
    rw [List.foldl_cons]
    have hany : d.any (fun x => x.1 = kv.1) = true := by
      rw [List.any_eq_true]
      obtain ⟨x, hx, hfst⟩ := List.mem_map.mp (hl kv (List.mem_cons_self kv l))
      exact ⟨x, hx, by simp [hfst]⟩
    have hkeys := dictSet_keys_of_mem d kv.1 kv.2 hany
    rw [ih (dictSet d kv.1 kv.2) (fun x hx => hkeys ▸ hl x (List.mem_cons_of_mem _ hx))]
    exact hkeys

/-- Folding `dictSet` over pairs that never mention key `k` leaves that
lookup unchanged. -/
theorem dictGet_foldl_not_mem (l d : List (ℤ × ℕ)) (k : ℤ)
    (hl : ∀ kv ∈ l, kv.1 ≠ k) :
    dictGet (l.foldl (fun d kv => dictSet d kv.1 kv.2) d) k = dictGet d k := by
  induction l generalizing d with
  | nil => rfl
  | cons kv l ih =>
    rw [List.foldl_cons]
    rw [ih (dictSet d kv.1 kv.2) (fun x hx => hl x (List.mem_cons_of_mem _ hx))]
    exact dictGet_dictSet_ne d kv.1 k kv.2 (hl kv (List.mem_cons_self kv l))

/-- With pairwise-distinct keys, the folded dict maps each listed key to its
listed value. -/
theorem dictGet_foldl_of_mem (l : List (ℤ × ℕ)) (d : List (ℤ × ℕ)) (k : ℤ)
    (v : ℕ) (hnd : (l.map Prod.fst).Nodup) (hmem : (k, v) ∈ l) :
    dictGet (l.foldl (fun d kv => dictSet d kv.1 kv.2) d) k = some v := by
  induction l generalizing d with
  | nil => exact absurd hmem (by simp)
  | cons kv l ih =>
    rw [List.foldl_cons]
    rcases List.mem_cons.mp hmem with h | h
    · subst h
      simp only [List.map_cons, List.nodup_cons] at hnd
      rw [dictGet_foldl_not_mem l _ k
        (fun x hx hk => hnd.1 (hk ▸ List.mem_map_of_mem Prod.fst hx))]
      exact dictGet_dictSet_self d k v
    · simp only [List.map_cons, List.nodup_cons] at hnd
      exact ih (dictSet d kv.1 kv.2) hnd.2 h

/-- The ratings of a book are partitioned by the five buckets. -/
theorem count_partition (rs : List ℤ) (h : ∀ r ∈ rs, 1 ≤ r ∧ r ≤ 5) :
    (rs.filter (fun x => x = 1)).length + (rs.filter (fun x => x = 2)).length +
    (rs.filter (fun x => x = 3)).length + (rs.filter (fun x => x = 4)).length +
    (rs.filter (fun x => x = 5)).length = rs.length := by
  induction rs with
  | nil => rfl
  | cons r l ih =>
    have hr := h r (List.mem_cons_self r l)
    have hl := ih (fun x hx => h x (List.mem_cons_of_mem _ hx))
    have hr5 : r = 1 ∨ r = 2 ∨ r = 3 ∨ r = 4 ∨ r = 5 := by omega
    rcases hr5 with rfl | rfl | rfl | rfl | rfl <;>
      simp [List.filter_cons] <;> omega

/-- In a dict with pairwise-distinct keys, every entry is what its key's
lookup returns. -/
theorem dictGet_of_mem_nodup (d : List (ℤ × ℕ)) (kv : ℤ × ℕ)
    (hmem : kv ∈ d) (hnd : (d.map Prod.fst).Nodup) :
    dictGet d kv.1 = some kv.2 := by
  induction d with
  | nil => exact absurd hmem (by simp)
  | cons a l ih =>
    simp only [List.map_cons, List.nodup_cons] at hnd
    rcases List.mem_cons.mp hmem with h | h
    · subst h
      unfold dictGet
      rw [List.find?_cons_of_pos _ (by simp)]
      rfl
    · have hne : a.1 ≠ kv.1 := by
        intro he
        exact hnd.1 (he ▸ List.mem_map_of_mem Prod.fst h)
      unfold dictGet
      rw [List.find?_cons_of_neg _ (by simpa using hne)]
      exact ih h hnd.2

/-- When each entry's value is a function of its key, the value column is
the image of the key column. -/
theorem map_snd_eq_map_fst (d : List (ℤ × ℕ)) (f : ℤ → ℕ)
    (hv : ∀ kv ∈ d, kv.2 = f kv.1) :
    d.map Prod.snd = (d.map Prod.fst).map f := by
  induction d with
  | nil => rfl
  | cons a l ih =>
    simp only [List.map_cons]
    rw [hv a (List.mem_cons_self a l), ih (fun x hx => hv x (List.mem_cons_of_mem _ hx))]

/-- C10: assuming every stored rating of the book lies in `[1,5]`,
`get_rating_distribution` returns a dict whose key list is exactly
`[1,2,3,4,5]`, whose value at each rating is the number of the book's
reviews with that rating (0 for absent ratings), and whose values sum to
the book's review count. -/
theorem get_rating_distribution_correct (db : DB) (bid : ℕ)
    (h : ∀ r ∈ bookRatings db bid, 1 ≤ r ∧ r ≤ 5) :
    (get_rating_distribution db bid).map Prod.fst = [1, 2, 3, 4, 5] ∧
    (∀ k : ℤ, 1 ≤ k → k ≤ 5 →
      dictGet (get_rating_distribution db bid) k =
        some ((bookRatings db bid).filter (fun x => x = k)).length) ∧
    ((get_rating_distribution db bid).map Prod.snd).sum =
      (bookRatings db bid).length := by
  have hkeysub : ∀ kv ∈ (distinctVals (bookRatings db bid)).map
      (fun v => (v, ((bookRatings db bid).filter (fun x => x = v)).length)),
      kv.1 ∈ ([(1, 0), (2, 0), (3, 0), (4, 0), (5, 0)] : List (ℤ × ℕ)).map Prod.fst := by
    intro kv hkv
    obtain ⟨v, hvmem, rfl⟩ := List.mem_map.mp hkv
    have hv := h v ((mem_distinctVals _ v).mp hvmem)
    have h5 : v = 1 ∨ v = 2 ∨ v = 3 ∨ v = 4 ∨ v = 5 := by omega
    rcases h5 with rfl | rfl | rfl | rfl | rfl <;> simp
  have hkeys : (get_rating_distribution db bid).map Prod.fst = [1, 2, 3, 4, 5] := by
    unfold get_rating_distribution
    rw [foldl_dictSet_keys _ _ hkeysub]
    rfl
  have hlookup : ∀ k : ℤ, 1 ≤ k → k ≤ 5 →
      dictGet (get_rating_distribution db bid) k =
        some ((bookRatings db bid).filter (fun x => x = k)).length := by
    intro k hk1 hk5
    unfold get_rating_distribution
    by_cases hkmem : k ∈ bookRatings db bid
    · apply dictGet_foldl_of_mem
      · rw [List.map_map]
        have : (Prod.fst ∘ fun v : ℤ =>
            (v, ((bookRatings db bid).filter (fun x => x = v)).length)) = id := rfl
        rw [this, List.map_id]
        exact nodup_distinctVals _
      · exact List.mem_map_of_mem _ ((mem_distinctVals _ k).mpr hkmem)
    · have hcnt : ((bookRatings db bid).filter (fun x => x = k)) = [] := by
        rw [List.filter_eq_nil_iff]
        intro x hx
        simp only [decide_eq_true_eq]
        intro hxk
        exact hkmem (hxk ▸ hx)
      rw [dictGet_foldl_not_mem]
      · rw [hcnt]
        have h5 : k = 1 ∨ k = 2 ∨ k = 3 ∨ k = 4 ∨ k = 5 := by omega
        rcases h5 with rfl | rfl | rfl | rfl | rfl <;> rfl
      · intro kv hkv
        obtain ⟨v, hvmem, rfl⟩ := List.mem_map.mp hkv
        intro hvk
        exact hkmem (hvk ▸ (mem_distinctVals _ v).mp hvmem)
  refine ⟨hkeys, hlookup, ?_⟩
  have hnd5 : ((get_rating_distribution db bid).map Prod.fst).Nodup := by
    rw [hkeys]
    decide
  have hvv : ∀ kv ∈ get_rating_distribution db bid,
      kv.2 = ((bookRatings db bid).filter (fun x => x = kv.1)).length := by
    intro kv hkv
    have hkmem : kv.1 ∈ ([1, 2, 3, 4, 5] : List ℤ) := by
      rw [← hkeys]
      exact List.mem_map_of_mem Prod.fst hkv
    have h5 : kv.1 = 1 ∨ kv.1 = 2 ∨ kv.1 = 3 ∨ kv.1 = 4 ∨ kv.1 = 5 := by
      simpa using hkmem
    have hb : 1 ≤ kv.1 ∧ kv.1 ≤ 5 := by
      rcases h5 with h5 | h5 | h5 | h5 | h5 <;> constructor <;> omega
    have hlook := hlookup kv.1 hb.1 hb.2
    rw [dictGet_of_mem_nodup _ kv hkv hnd5] at hlook
    injection hlook
  rw [map_snd_eq_map_fst _
    (fun k => ((bookRatings db bid).filter (fun x => x = k)).length) hvv, hkeys]
  have hpart := count_partition _ h
  simp only [List.map_cons, List.map_nil, List.sum_cons, List.sum_nil]
  omega

/-- Witness for C10 on a concrete one-review book. -/
theorem get_rating_distribution_correct_witness :
    (get_rating_distribution exDBdup 1).map Prod.fst = [1, 2, 3, 4, 5] ∧
    (∀ k : ℤ, 1 ≤ k → k ≤ 5 →
      dictGet (get_rating_distribution exDBdup 1) k =
        some ((bookRatings exDBdup 1).filter (fun x => x = k)).length) ∧
    ((get_rating_distribution exDBdup 1).map Prod.snd).sum =
      (bookRatings exDBdup 1).length :=
  get_rating_distribution_correct exDBdup 1 (by decide)

end Booklook
